import Mathlib

/-!
Masking panel widget (src/gui/qgsmaskingwidget.cpp).

A shallow embedding of the symbol-layer visitor, of the mask collector
`symbolLayerMasks`, and of `QgsMaskingWidget::setLayer` and
`QgsMaskingWidget::apply`, followed by the properties proved about them.

Conventions of the embedding.

* Objects that the C++ code mutates in place through pointers (symbol layers,
  label settings, the set `layersToRefresh`) are passed explicitly: every
  function returns the new value of what it may have changed.
* A C++ range-for is a `List.foldl` whose accumulator holds the variables the
  loop body assigns.
* `QSet` and `QHash` are lists in iteration order; only membership of a `QSet`
  built by the code is ever used in a statement.
* `int` indices are `Int`; a `QList` holds fewer than `2^31` elements, so the
  loop counter of `visitSymbol` never wraps.
-/

/-! ## Data model -/

/-- Qt string; `operator+` is `++` and `operator==` is equality. -/
abbrev QString := String

/-- Qt set, kept as the list of its elements in iteration order. -/
abbrev QSet (α : Type) := List α

/-- Qt hash, kept as the list of its (key, value) entries in iteration order. -/
abbrev QHash (κ ν : Type) := List (κ × ν)

/-- Adds one element to a set (`QSet::insert`). -/
def QSet.insert {α : Type} [DecidableEq α] (s : QSet α) (x : α) : QSet α :=
  List.insert x s

/-- Adds every element of `t` to `s` (`QSet::unite`). -/
def QSet.unite {α : Type} [DecidableEq α] (s t : QSet α) : QSet α :=
  List.union t s

/-- Symbol layer identifier: a symbol key and the path of indices that locates
the symbol layer among nested sub-symbols (`QgsSymbolLayerId`). -/
structure QgsSymbolLayerId where
  symbolKey : QString
  symbolLayerIndexPath : List Int
deriving DecidableEq

/-- Mask reference: a layer id and a symbol layer of that layer
(`QgsSymbolLayerReference`). -/
structure QgsSymbolLayerReference where
  layerId : QString
  symbolLayerId : QgsSymbolLayerId
deriving DecidableEq

/-- List of mask references (`QgsSymbolLayerReferenceList`). -/
abbrev QgsSymbolLayerReferenceList := List QgsSymbolLayerReference

/-- Mask source descriptor (`QgsMaskSourceSelectionWidget::MaskSource`). -/
structure MaskSource where
  layerId : QString
  isLabeling : Bool
  symbolLayerId : QgsSymbolLayerId
deriving DecidableEq

mutual
/-- Modelled from the spec: a symbol is the list of its symbol layers
(`symbolLayerCount`, `symbolLayer( idx )`). -/
inductive QgsSymbol where
  | mk (symbolLayers : List QgsSymbolLayer)
/-- Modelled from the spec: a symbol layer has a type tag (`layerType()`), a mask
list (`masks()`, replaced by `setMasks`) and an optional sub-symbol
(`subSymbol()`). -/
inductive QgsSymbolLayer where
  | mk (layerType : QString) (masks : QgsSymbolLayerReferenceList)
      (subSymbol : Option QgsSymbol)
end

/-- Symbol layers of a symbol, by index. -/
def QgsSymbol.symbolLayers : QgsSymbol → List QgsSymbolLayer
  | .mk layers => layers

/-- Type tag of a symbol layer. -/
def QgsSymbolLayer.layerType : QgsSymbolLayer → QString
  | .mk ty _ _ => ty

/-- Mask list of a symbol layer. -/
def QgsSymbolLayer.masks : QgsSymbolLayer → QgsSymbolLayerReferenceList
  | .mk _ masks _ => masks

/-- Sub-symbol of a symbol layer, when it has one. -/
def QgsSymbolLayer.subSymbol : QgsSymbolLayer → Option QgsSymbol
  | .mk _ _ sub => sub

/-- Modelled from the spec: node types of the style visitor; the code only tells
symbol-rule nodes from all the others. -/
inductive NodeType where
  | SymbolRule
  | Other
deriving DecidableEq

/-- Modelled from the spec: a style entity is a symbol entity (whose symbol may
be null) or an entity of another type. -/
inductive QgsStyleEntity where
  | SymbolEntity (symbol : Option QgsSymbol)
  | OtherEntity

/-- Modelled from the spec: leaf handed to `visit`: an identifier and an entity
pointer, which may be null (`QgsStyleEntityVisitorInterface::StyleLeaf`). -/
structure StyleLeaf where
  identifier : QString
  entity : Option QgsStyleEntity

/-- Modelled from the spec: what a renderer shows to a style visitor, a tree
whose inner nodes carry a type and an identifier
(`QgsStyleEntityVisitorInterface::Node`) and whose leaves are style leaves. -/
inductive StyleItem where
  | leaf (styleLeaf : StyleLeaf)
  | node (type : NodeType) (identifier : QString) (children : List StyleItem)

/-- Modelled from the spec: a renderer, as the sequence of items that its
`accept` walks. -/
structure QgsFeatureRenderer where
  items : List StyleItem

/-- Text mask settings of a label provider (`QgsTextMaskSettings`). -/
structure QgsTextMaskSettings where
  enabled : Bool
  maskedSymbolLayers : QgsSymbolLayerReferenceList

/-- Text format of a label provider (`QgsTextFormat`). -/
structure QgsTextFormat where
  mask : QgsTextMaskSettings

/-- Settings of a label provider (`QgsPalLayerSettings`). -/
structure QgsPalLayerSettings where
  format : QgsTextFormat

/-- Modelled from the spec: the labeling of a layer is a set of named label
providers, each with its own settings: `subProviders()` lists the provider
keys and `settings( key )` reads the settings stored under a key. -/
structure QgsAbstractVectorLayerLabeling where
  subProviders : List QString
  settings : QString → QgsPalLayerSettings

/-- Modelled from the spec: `setSettings( settings, providerId )` replaces the
settings stored under one provider key. -/
def QgsAbstractVectorLayerLabeling.setSettings (labeling : QgsAbstractVectorLayerLabeling)
    (settings : QgsPalLayerSettings) (providerId : QString) :
    QgsAbstractVectorLayerLabeling :=
  { subProviders := labeling.subProviders,
    settings := fun key => if key = providerId then settings else labeling.settings key }

/-- Vector layer: its id, its renderer and its labeling, both optional. -/
structure QgsVectorLayer where
  id : QString
  renderer : Option QgsFeatureRenderer
  labeling : Option QgsAbstractVectorLayerLabeling

/-- Map layer of the project: a vector layer or a layer of another kind. -/
inductive QgsMapLayer where
  | vectorLayer (vl : QgsVectorLayer)
  | otherLayer

/-- The cast `qobject_cast<QgsVectorLayer *>`. -/
def QgsMapLayer.asVectorLayer : QgsMapLayer → Option QgsVectorLayer
  | .vectorLayer vl => some vl
  | .otherLayer => none

/-! ## SymbolLayerVisitor (lines 55-108) -/

/-- Callback of the visitor. It receives the symbol layer and its id, and works
on the state `σ` it captured by reference. The only change the callbacks of
this file make to the symbol layer they receive is `setMasks`, so a callback
returns the mask list the symbol layer holds when it returns. -/
abbrev SymbolLayerCallback (σ : Type) :=
  QgsSymbolLayer → QgsSymbolLayerId → σ → QgsSymbolLayerReferenceList × σ

/-- State of a visitor: the member `mSymbolKey` and the state captured by
`mCallback` (the member `mMasks` is never used). -/
structure SymbolLayerVisitor (σ : Type) where
  mSymbolKey : QString
  captured : σ

/-- Lines 65-72: only symbol-rule nodes are entered, and entering one records its
identifier as the current symbol key. -/
def SymbolLayerVisitor.visitEnter {σ : Type} (v : SymbolLayerVisitor σ)
    (type : NodeType) (identifier : QString) : Bool × SymbolLayerVisitor σ :=
  if type ≠ NodeType.SymbolRule then (false, v)
  else (true, { mSymbolKey := identifier, captured := v.captured })

mutual
/-- Lines 75-91: `visitSymbol( symbol, leafIdentifier, rootPath )`. -/
def SymbolLayerVisitor.visitSymbol {σ : Type} (mCallback : SymbolLayerCallback σ)
    (mSymbolKey leafIdentifier : QString) :
    QgsSymbol → List Int → σ → QgsSymbol × σ
  | .mk layers, rootPath, st =>
    let r := SymbolLayerVisitor.visitSymbolLoop mCallback mSymbolKey leafIdentifier
      layers 0 rootPath st
    (.mk r.1, r.2)
/-- Lines 77-90: the loop of `visitSymbol` from index `idx` on, over the symbol
layers that remain. -/
def SymbolLayerVisitor.visitSymbolLoop {σ : Type} (mCallback : SymbolLayerCallback σ)
    (mSymbolKey leafIdentifier : QString) :
    List QgsSymbolLayer → Int → List Int → σ → List QgsSymbolLayer × σ
  | [], _, _, st => ([], st)
  | sl :: rest, idx, rootPath, st =>
    let indexPath := rootPath ++ [idx]
    let r := SymbolLayerVisitor.visitSymbolLayer mCallback mSymbolKey leafIdentifier
      sl indexPath st
    let r2 := SymbolLayerVisitor.visitSymbolLoop mCallback mSymbolKey leafIdentifier
      rest (idx + 1) rootPath r.2
    (r.1 :: r2.1, r2.2)
/-- Lines 82-89: one turn of the loop: the callback on the symbol layer, then the
recursion over its sub-symbol when it has one. The symbol layer that results
holds the mask list the callback left and the sub-symbol as the recursion
left it. -/
def SymbolLayerVisitor.visitSymbolLayer {σ : Type} (mCallback : SymbolLayerCallback σ)
    (mSymbolKey leafIdentifier : QString) :
    QgsSymbolLayer → List Int → σ → QgsSymbolLayer × σ
  | .mk ty masks sub, indexPath, st =>
    let c := mCallback (.mk ty masks sub) ⟨mSymbolKey ++ leafIdentifier, indexPath⟩ st
    match sub with
    | some subSymbol =>
      let r := SymbolLayerVisitor.visitSymbol mCallback mSymbolKey leafIdentifier
        subSymbol indexPath c.2
      (.mk ty c.1 (some r.1), r.2)
    | none => (.mk ty c.1 none, c.2)
end

/-- Lines 93-102: `visit( leaf )`: a leaf that holds a symbol entity with a symbol
is walked from the empty root path. The C++ function always returns true. -/
def SymbolLayerVisitor.visit {σ : Type} (mCallback : SymbolLayerCallback σ)
    (v : SymbolLayerVisitor σ) (leaf : StyleLeaf) : StyleLeaf × SymbolLayerVisitor σ :=
  match leaf.entity with
  | some (.SymbolEntity (some symbol)) =>
    let r := SymbolLayerVisitor.visitSymbol mCallback v.mSymbolKey leaf.identifier
      symbol [] v.captured
    ({ identifier := leaf.identifier, entity := some (.SymbolEntity (some r.1)) },
     { mSymbolKey := v.mSymbolKey, captured := r.2 })
  | _ => (leaf, v)

mutual
/-- Modelled from the spec: how a renderer walks one item with a visitor: a leaf
is handed to `visit`; a node is handed to `visitEnter` and its children are
walked only when that returns true (`visitExit` is not overridden and `visit`
never asks to stop). -/
def StyleItem.accept {σ : Type} (mCallback : SymbolLayerCallback σ) :
    StyleItem → SymbolLayerVisitor σ → StyleItem × SymbolLayerVisitor σ
  | .leaf styleLeaf, v =>
    let r := SymbolLayerVisitor.visit mCallback v styleLeaf
    (.leaf r.1, r.2)
  | .node type identifier children, v =>
    let entered := v.visitEnter type identifier
    if entered.1 then
      let r := StyleItem.acceptAll mCallback children entered.2
      (.node type identifier r.1, r.2)
    else (.node type identifier children, entered.2)
/-- Modelled from the spec: the items of one level are walked in order. -/
def StyleItem.acceptAll {σ : Type} (mCallback : SymbolLayerCallback σ) :
    List StyleItem → SymbolLayerVisitor σ → List StyleItem × SymbolLayerVisitor σ
  | [], v => ([], v)
  | item :: rest, v =>
    let r := StyleItem.accept mCallback item v
    let r2 := StyleItem.acceptAll mCallback rest r.2
    (r.1 :: r2.1, r2.2)
end

/-- Modelled from the spec: `renderer->accept( &visitor )` with a freshly built
visitor, whose symbol key is the empty string. -/
def QgsFeatureRenderer.accept {σ : Type} (renderer : QgsFeatureRenderer)
    (mCallback : SymbolLayerCallback σ) (captured : σ) : QgsFeatureRenderer × σ :=
  let r := StyleItem.acceptAll mCallback renderer.items
    { mSymbolKey := "", captured := captured }
  ({ items := r.1 }, r.2.captured)

/-! ## symbolLayerMasks (lines 118-131) -/

/-- Lines 124-128: the callback of the collector. -/
def symbolLayerMasks.collector :
    SymbolLayerCallback (List (QgsSymbolLayerId × QgsSymbolLayerReferenceList)) :=
  fun sl lid mMasks =>
    if ¬ sl.masks.isEmpty then (sl.masks, mMasks ++ [(lid, sl.masks)])
    else (sl.masks, mMasks)

/-- Lines 118-131: pairs of a mask source symbol layer id and its mask list. -/
def symbolLayerMasks (layer : QgsVectorLayer) :
    List (QgsSymbolLayerId × QgsSymbolLayerReferenceList) :=
  match layer.renderer with
  | none => []
  | some renderer => (renderer.accept symbolLayerMasks.collector []).2

/-! ## QgsMaskingWidget::setLayer (lines 133-195) -/

/-- What `setLayer` hands to the two selection widgets. -/
structure MaskSelection where
  maskSources : List MaskSource
  maskedSymbolLayers : QSet QgsSymbolLayerId

/-- Result type of `QgsVectorLayerUtils::labelMasks`: rule key, then layer id,
then the set of masked symbol layer ids. -/
abbrev LabelMasks := QHash QString (QHash QString (QSet QgsSymbolLayerId))

/-- Lines 139-194 of `setLayer( layer )`, where `mLayer = layer`: the two
selections handed to the widgets at lines 193-194. `layers` is
`QgsProject::instance()->mapLayers()` in iteration order. The function
`QgsVectorLayerUtils::labelMasks` is not part of the file and is a parameter.
The local `source` is assigned in full before each `append`, so it is not
part of the loop state. -/
def QgsMaskingWidget.setLayer (labelMasks : QgsVectorLayer → LabelMasks)
    (layers : List (QString × QgsMapLayer)) (layer : QgsVectorLayer) : MaskSelection :=
  layers.foldl (fun (acc : MaskSelection) layerIt =>
    let layerId := layerIt.1
    match layerIt.2.asVectorLayer with
    | none => acc
    | some vl =>
      let slMasks := symbolLayerMasks vl
      let acc1 := slMasks.foldl (fun (acc : MaskSelection) p =>
        p.2.foldl (fun (acc : MaskSelection) ref =>
          if ref.layerId = layer.id then
            { maskedSymbolLayers := acc.maskedSymbolLayers.insert ref.symbolLayerId,
              maskSources := acc.maskSources ++
                [{ layerId := layerId, isLabeling := false, symbolLayerId := p.1 }] }
          else acc) acc) acc
      (labelMasks vl).foldl (fun (acc : MaskSelection) it =>
        it.2.foldl (fun (acc : MaskSelection) it2 =>
          if it2.1 = layer.id then
            { maskedSymbolLayers := acc.maskedSymbolLayers.unite it2.2,
              maskSources := acc.maskSources ++
                [{ layerId := layerId, isLabeling := true, symbolLayerId := ⟨it.1, []⟩ }] }
          else acc) acc) acc1)
    { maskSources := [], maskedSymbolLayers := [] }

/-! ## QgsMaskingWidget::apply (lines 197-294) -/

/-- Lines 213-242: the callback `maskSetter` of `apply` for the layer stored
under `layerItKey`; the captured state is `layersToRefresh`. -/
def QgsMaskingWidget.maskSetter (mLayer : QgsVectorLayer) (maskSources : List MaskSource)
    (maskedSymbolLayers : QSet QgsSymbolLayerId) (layerItKey : QString) :
    SymbolLayerCallback (QSet QString) :=
  fun sl slId layersToRefresh =>
    if sl.layerType = "MaskMarker" then
      let masks := sl.masks
      let newMasks := masks.foldl (fun (newMasks : QgsSymbolLayerReferenceList) ref =>
        if ref.layerId ≠ mLayer.id then newMasks ++ [ref] else newMasks) []
      maskSources.foldl (fun (acc : QgsSymbolLayerReferenceList × QSet QString) source =>
        if source.isLabeling = false ∧ source.layerId = layerItKey
            ∧ source.symbolLayerId = slId then
          (maskedSymbolLayers.foldl (fun (newMasks : QgsSymbolLayerReferenceList) maskedId =>
              newMasks ++ [{ layerId := mLayer.id, symbolLayerId := maskedId }]) acc.1,
           acc.2.insert source.layerId)
        else acc) (newMasks, layersToRefresh)
    else (sl.masks, layersToRefresh)

/-- Lines 250-282: one turn of the loop over the label providers; the loop state
is the labeling and `layersToRefresh`. -/
def QgsMaskingWidget.resetLabelMasks (mLayer : QgsVectorLayer)
    (maskSources : List MaskSource) (maskedSymbolLayers : QSet QgsSymbolLayerId)
    (layerItKey : QString) (acc : QgsAbstractVectorLayerLabeling × QSet QString)
    (labelProvider : QString) : QgsAbstractVectorLayerLabeling × QSet QString :=
  let settings := acc.1.settings labelProvider
  let format := settings.format
  if ¬ format.mask.enabled then acc
  else
    let masks := format.mask.maskedSymbolLayers
    let newMasks := masks.foldl (fun (newMasks : QgsSymbolLayerReferenceList) ref =>
      if ref.layerId ≠ mLayer.id then newMasks ++ [ref] else newMasks) []
    let r := maskSources.foldl
      (fun (acc : QgsSymbolLayerReferenceList × QSet QString) source =>
        if source.isLabeling = true ∧ source.layerId = layerItKey
            ∧ source.symbolLayerId.symbolKey = labelProvider then
          (maskedSymbolLayers.foldl (fun (newMasks : QgsSymbolLayerReferenceList) maskedId =>
              newMasks ++ [{ layerId := mLayer.id, symbolLayerId := maskedId }]) acc.1,
           acc.2.insert source.layerId)
        else acc) (newMasks, acc.2)
    (acc.1.setSettings
      { format := { mask := { enabled := format.mask.enabled,
                              maskedSymbolLayers := r.1 } } } labelProvider,
     r.2)

/-- Lines 211-282: the body of the loop over the project layers, for one vector
layer `vl` stored under `layerItKey`. -/
def QgsMaskingWidget.applyVectorLayer (mLayer : QgsVectorLayer)
    (maskSources : List MaskSource) (maskedSymbolLayers : QSet QgsSymbolLayerId)
    (layerItKey : QString) (vl : QgsVectorLayer) (layersToRefresh : QSet QString) :
    QgsVectorLayer × QSet QString :=
  let r : Option QgsFeatureRenderer × QSet QString :=
    match vl.renderer with
    | some renderer =>
      let a := renderer.accept
        (QgsMaskingWidget.maskSetter mLayer maskSources maskedSymbolLayers layerItKey)
        layersToRefresh
      (some a.1, a.2)
    | none => (none, layersToRefresh)
  match vl.labeling with
  | none => ({ id := vl.id, renderer := r.1, labeling := none }, r.2)
  | some labeling =>
    let l := labeling.subProviders.foldl
      (QgsMaskingWidget.resetLabelMasks mLayer maskSources maskedSymbolLayers layerItKey)
      (labeling, r.2)
    ({ id := vl.id, renderer := r.1, labeling := some l.1 }, l.2)

/-- State of the project after `apply`, with what `apply` asked for. -/
structure ApplyOutcome where
  layers : List (QString × QgsMapLayer)
  layersToRefresh : QSet QString
  repainted : List QString
  dirty : Bool

/-- Lines 197-294: `apply()`, on the project layers in iteration order, the edited
layer `mLayer` and the two selections read from the widgets (the selected
destinations in the iteration order of their `QSet`). `repainted` lists the
ids of the layers on which `triggerRepaint` is called, in call order: the
edited layer, then every member of `layersToRefresh`. -/
def QgsMaskingWidget.apply (layers : List (QString × QgsMapLayer))
    (mLayer : QgsVectorLayer) (maskSources : List MaskSource)
    (maskedSymbolLayers : QSet QgsSymbolLayerId) : ApplyOutcome :=
  let r := layers.foldl
    (fun (acc : List (QString × QgsMapLayer) × QSet QString) layerIt =>
      match layerIt.2.asVectorLayer with
      | none => (acc.1 ++ [layerIt], acc.2)
      | some vl =>
        let a := QgsMaskingWidget.applyVectorLayer mLayer maskSources maskedSymbolLayers
          layerIt.1 vl acc.2
        (acc.1 ++ [(layerIt.1, QgsMapLayer.vectorLayer a.1)], a.2))
    ([], [])
  { layers := r.1,
    layersToRefresh := r.2,
    repainted := mLayer.id :: r.2,
    dirty := true }

/-! ## Definitions used to state the properties -/

mutual
/-- Symbol layers of a symbol tree in pre-order, each with the sequence of
indices that leads to it from the root symbol. -/
def QgsSymbol.preorder : QgsSymbol → List (List Int × QgsSymbolLayer)
  | .mk layers => QgsSymbol.preorderFrom layers 0
/-- Pre-order of the symbol layers of a list of siblings whose first member has
index `idx`. -/
def QgsSymbol.preorderFrom : List QgsSymbolLayer → Int → List (List Int × QgsSymbolLayer)
  | [], _ => []
  | sl :: rest, idx =>
    (([idx], sl) :: (QgsSymbolLayer.descendants sl).map (fun q => (idx :: q.1, q.2)))
      ++ QgsSymbol.preorderFrom rest (idx + 1)
/-- Pre-order of the symbol layers below a symbol layer, with paths relative to
it. -/
def QgsSymbolLayer.descendants : QgsSymbolLayer → List (List Int × QgsSymbolLayer)
  | .mk _ _ none => []
  | .mk _ _ (some subSymbol) => QgsSymbol.preorder subSymbol
end

/-- Call of the callback made for the entry `q` of a pre-order, under the symbol
key `key` and the root path `rootPath`. -/
def callOf (key : QString) (rootPath : List Int) (q : List Int × QgsSymbolLayer) :
    QgsSymbolLayer × QgsSymbolLayerId :=
  (q.2, ⟨key, rootPath ++ q.1⟩)

/-- State the callback leaves after one call. -/
def callStep {σ : Type} (mCallback : SymbolLayerCallback σ) (st : σ)
    (c : QgsSymbolLayer × QgsSymbolLayerId) : σ :=
  (mCallback c.1 c.2 st).2

/-- What is seen of an entry of a pre-order: its path, the type of the symbol
layer and its mask list. -/
def entryView (q : List Int × QgsSymbolLayer) :
    List Int × QString × QgsSymbolLayerReferenceList :=
  (q.1, q.2.layerType, q.2.masks)

mutual
/-- Applies `g` to the mask list of every symbol layer of a symbol tree. -/
def QgsSymbol.mapMasks (g : QgsSymbolLayerReferenceList → QgsSymbolLayerReferenceList) :
    QgsSymbol → QgsSymbol
  | .mk layers => .mk (QgsSymbol.mapMasksList g layers)
/-- Applies `g` to the mask list of every symbol layer below a list of siblings. -/
def QgsSymbol.mapMasksList (g : QgsSymbolLayerReferenceList → QgsSymbolLayerReferenceList) :
    List QgsSymbolLayer → List QgsSymbolLayer
  | [] => []
  | sl :: rest => QgsSymbolLayer.mapMasks g sl :: QgsSymbol.mapMasksList g rest
/-- Applies `g` to the mask list of a symbol layer and of every symbol layer
below it. -/
def QgsSymbolLayer.mapMasks (g : QgsSymbolLayerReferenceList → QgsSymbolLayerReferenceList) :
    QgsSymbolLayer → QgsSymbolLayer
  | .mk ty masks none => .mk ty (g masks) none
  | .mk ty masks (some subSymbol) => .mk ty (g masks) (some (QgsSymbol.mapMasks g subSymbol))
end

/-- Calls of the callback made while a leaf is visited under the symbol key
`key`. -/
def StyleLeaf.calls (key : QString) (leaf : StyleLeaf) :
    List (QgsSymbolLayer × QgsSymbolLayerId) :=
  match leaf.entity with
  | some (.SymbolEntity (some symbol)) =>
    symbol.preorder.map (callOf (key ++ leaf.identifier) [])
  | _ => []

mutual
/-- Calls of the callback made while an item is walked from the symbol key `key`,
with the symbol key the walk ends with. -/
def StyleItem.calls : StyleItem → QString → List (QgsSymbolLayer × QgsSymbolLayerId) × QString
  | .leaf styleLeaf, key => (styleLeaf.calls key, key)
  | .node type identifier children, key =>
    if type ≠ NodeType.SymbolRule then ([], key) else StyleItem.callsAll children identifier
/-- Calls of the callback made while the items of one level are walked. -/
def StyleItem.callsAll :
    List StyleItem → QString → List (QgsSymbolLayer × QgsSymbolLayerId) × QString
  | [], key => ([], key)
  | item :: rest, key =>
    ((StyleItem.calls item key).1 ++ (StyleItem.callsAll rest (StyleItem.calls item key).2).1,
     (StyleItem.callsAll rest (StyleItem.calls item key).2).2)
end

/-- Calls of the callback made while a renderer is walked by a fresh visitor. -/
def QgsFeatureRenderer.calls (renderer : QgsFeatureRenderer) :
    List (QgsSymbolLayer × QgsSymbolLayerId) :=
  (StyleItem.callsAll renderer.items "").1

/-- What is seen of a call: the id, the type of the symbol layer and its mask
list. -/
def callView (c : QgsSymbolLayer × QgsSymbolLayerId) :
    QgsSymbolLayerId × QString × QgsSymbolLayerReferenceList :=
  (c.2, c.1.layerType, c.1.masks)

/-- Callback that records what it is called with and changes nothing. -/
def recorder :
    SymbolLayerCallback (List (QgsSymbolLayerId × QString × QgsSymbolLayerReferenceList)) :=
  fun sl slId seen => (sl.masks, seen ++ [(slId, sl.layerType, sl.masks)])

/-- Symbol layers that the visitor reaches in a renderer, in the order of the
calls: the id passed to the callback, the type of the symbol layer and its
mask list. -/
def QgsFeatureRenderer.visited (renderer : QgsFeatureRenderer) :
    List (QgsSymbolLayerId × QString × QgsSymbolLayerReferenceList) :=
  (renderer.accept recorder []).2

/-- Applies `g` to the mask list of every symbol layer of a style entity. -/
def QgsStyleEntity.mapMasks (g : QgsSymbolLayerReferenceList → QgsSymbolLayerReferenceList) :
    QgsStyleEntity → QgsStyleEntity
  | .SymbolEntity (some symbol) => .SymbolEntity (some (symbol.mapMasks g))
  | .SymbolEntity none => .SymbolEntity none
  | .OtherEntity => .OtherEntity

/-- Applies `g` to the mask list of every symbol layer of a leaf. -/
def StyleLeaf.mapMasks (g : QgsSymbolLayerReferenceList → QgsSymbolLayerReferenceList)
    (leaf : StyleLeaf) : StyleLeaf :=
  { identifier := leaf.identifier, entity := leaf.entity.map (QgsStyleEntity.mapMasks g) }

mutual
/-- Applies `g` to the mask list of every symbol layer of an item, whether a
visitor would reach it or not. -/
def StyleItem.mapMasks (g : QgsSymbolLayerReferenceList → QgsSymbolLayerReferenceList) :
    StyleItem → StyleItem
  | .leaf styleLeaf => .leaf (styleLeaf.mapMasks g)
  | .node type identifier children =>
    .node type identifier (StyleItem.mapMasksAll g children)
/-- Applies `g` to the mask list of every symbol layer of a list of items. -/
def StyleItem.mapMasksAll (g : QgsSymbolLayerReferenceList → QgsSymbolLayerReferenceList) :
    List StyleItem → List StyleItem
  | [] => []
  | item :: rest => StyleItem.mapMasks g item :: StyleItem.mapMasksAll g rest
end

/-- Applies `g` to the mask list of every symbol layer of a renderer. -/
def QgsFeatureRenderer.mapMasks
    (g : QgsSymbolLayerReferenceList → QgsSymbolLayerReferenceList)
    (renderer : QgsFeatureRenderer) : QgsFeatureRenderer :=
  { items := StyleItem.mapMasksAll g renderer.items }

/-- Whether a selected mask source names the symbol layer `slId` of the layer
stored under `key`. -/
def MaskSource.namesSymbolLayer (key : QString) (slId : QgsSymbolLayerId)
    (source : MaskSource) : Bool :=
  decide (source.isLabeling = false ∧ source.layerId = key ∧ source.symbolLayerId = slId)

/-- Whether a selected mask source names the label provider `provider` of the
layer stored under `key`. -/
def MaskSource.namesLabelProvider (key provider : QString) (source : MaskSource) : Bool :=
  decide (source.isLabeling = true ∧ source.layerId = key
    ∧ source.symbolLayerId.symbolKey = provider)

/-- Mask list the spec describes for a rewritten holder: the old references to
other layers, in their order, followed by one reference to each selected
destination of the edited layer for every matching selected source. -/
def rebuiltMasks (editedId : QString) (matching : List MaskSource)
    (destinations : List QgsSymbolLayerId) (old : QgsSymbolLayerReferenceList) :
    QgsSymbolLayerReferenceList :=
  old.filter (fun ref => decide (ref.layerId ≠ editedId))
    ++ matching.flatMap (fun _ =>
        destinations.map (fun maskedId => { layerId := editedId, symbolLayerId := maskedId }))

/-- Mask list of a label provider. -/
def QgsAbstractVectorLayerLabeling.masks (labeling : QgsAbstractVectorLayerLabeling)
    (provider : QString) : QgsSymbolLayerReferenceList :=
  (labeling.settings provider).format.mask.maskedSymbolLayers

/-- Whether the text mask of a label provider is enabled. -/
def QgsAbstractVectorLayerLabeling.maskEnabled (labeling : QgsAbstractVectorLayerLabeling)
    (provider : QString) : Bool :=
  (labeling.settings provider).format.mask.enabled

/-- Entry of the project after `apply`: a vector layer is rewritten by the body
of the loop, any other layer is left as it is. -/
def QgsMaskingWidget.applied (mLayer : QgsVectorLayer) (maskSources : List MaskSource)
    (maskedSymbolLayers : QSet QgsSymbolLayerId) (layerIt : QString × QgsMapLayer) :
    QString × QgsMapLayer :=
  match layerIt.2.asVectorLayer with
  | none => layerIt
  | some vl =>
    (layerIt.1, QgsMapLayer.vectorLayer
      (QgsMaskingWidget.applyVectorLayer mLayer maskSources maskedSymbolLayers
        layerIt.1 vl []).1)

/-- Mask list the spec describes for a symbol layer after `apply`: rebuilt for a
symbol layer of type "MaskMarker", unchanged for any other. -/
def rewrittenMasks (editedId : QString) (selected : List MaskSource)
    (destinations : List QgsSymbolLayerId) (key : QString) (slId : QgsSymbolLayerId)
    (layerType : QString) (old : QgsSymbolLayerReferenceList) : QgsSymbolLayerReferenceList :=
  if layerType = "MaskMarker" then
    rebuiltMasks editedId (selected.filter (MaskSource.namesSymbolLayer key slId))
      destinations old
  else old

/-- Whether some selected source names a symbol layer of type "MaskMarker" that
the visitor reaches in the renderer of the layer stored under `key`. -/
def selectsSymbolLayerOf (selected : List MaskSource) (key : QString)
    (vl : QgsVectorLayer) (source : MaskSource) : Prop :=
  ∃ renderer, vl.renderer = some renderer ∧ ∃ e ∈ renderer.visited,
    e.2.1 = "MaskMarker" ∧ source ∈ selected
      ∧ MaskSource.namesSymbolLayer key e.1 source = true

/-- Whether some selected source names a label provider with an enabled text
mask of the layer stored under `key`. -/
def selectsLabelProviderOf (selected : List MaskSource) (key : QString)
    (vl : QgsVectorLayer) (source : MaskSource) : Prop :=
  ∃ labeling, vl.labeling = some labeling ∧ ∃ p ∈ labeling.subProviders,
    labeling.maskEnabled p = true ∧ source ∈ selected
      ∧ MaskSource.namesLabelProvider key p source = true

/-- Symbology descriptors of the layer stored under `key`: for every symbol layer
the visitor reaches, in the order of the calls, one descriptor naming it for
each of its mask references to the edited layer. -/
def symbologySources (editedId key : QString) (vl : QgsVectorLayer) : List MaskSource :=
  match vl.renderer with
  | none => []
  | some renderer =>
    renderer.visited.flatMap (fun e =>
      (e.2.2.filter (fun ref => decide (ref.layerId = editedId))).map
        (fun _ => { layerId := key, isLabeling := false, symbolLayerId := e.1 }))

/-- Labeling descriptors of the layer stored under `key`: one descriptor with the
rule key and an empty index path for each id set that `labelMasks` reports
under the edited layer's id. -/
def labelingSources (labelMasks : QgsVectorLayer → LabelMasks) (editedId key : QString)
    (vl : QgsVectorLayer) : List MaskSource :=
  (labelMasks vl).flatMap (fun it =>
    (it.2.filter (fun it2 => decide (it2.1 = editedId))).map
      (fun _ => { layerId := key, isLabeling := true, symbolLayerId := ⟨it.1, []⟩ }))

/-- Labeling descriptors with one descriptor for each label mask reference to the
edited layer, that is for each id of each id set reported under its id. -/
def labelingSourcesPerReference (labelMasks : QgsVectorLayer → LabelMasks)
    (editedId key : QString) (vl : QgsVectorLayer) : List MaskSource :=
  (labelMasks vl).flatMap (fun it =>
    (it.2.filter (fun it2 => decide (it2.1 = editedId))).flatMap (fun it2 =>
      it2.2.map (fun _ => { layerId := key, isLabeling := true, symbolLayerId := ⟨it.1, []⟩ })))

/-- Descriptors that one entry of the project contributes to the mask sources:
none for a layer that is not a vector layer, otherwise the symbology
descriptors followed by the labeling descriptors. -/
def collectedSourcesOf (labelMasks : QgsVectorLayer → LabelMasks) (editedId : QString)
    (layerIt : QString × QgsMapLayer) : List MaskSource :=
  match layerIt.2.asVectorLayer with
  | none => []
  | some vl =>
    symbologySources editedId layerIt.1 vl ++ labelingSources labelMasks editedId layerIt.1 vl

/-- Descriptors that one entry of the project would contribute if labeling gave
one descriptor for each label mask reference. -/
def collectedSourcesPerReferenceOf (labelMasks : QgsVectorLayer → LabelMasks)
    (editedId : QString) (layerIt : QString × QgsMapLayer) : List MaskSource :=
  match layerIt.2.asVectorLayer with
  | none => []
  | some vl =>
    symbologySources editedId layerIt.1 vl
      ++ labelingSourcesPerReference labelMasks editedId layerIt.1 vl

/-- Whether `id` is the masked symbol layer of a symbology mask reference of `vl`
to the edited layer. -/
def symbologyDestination (editedId : QString) (vl : QgsVectorLayer)
    (id : QgsSymbolLayerId) : Prop :=
  ∃ p ∈ symbolLayerMasks vl, ∃ ref ∈ p.2, ref.layerId = editedId ∧ ref.symbolLayerId = id

/-- Whether `id` belongs to an id set that `labelMasks` reports for `vl` under
the edited layer's id, for any rule key. -/
def labelingDestination (labelMasks : QgsVectorLayer → LabelMasks) (editedId : QString)
    (vl : QgsVectorLayer) (id : QgsSymbolLayerId) : Prop :=
  ∃ it ∈ labelMasks vl, ∃ it2 ∈ it.2, it2.1 = editedId ∧ id ∈ it2.2

/-- Symbol layer that a sequence of indices leads to from a symbol: the first
index picks a symbol layer of the symbol, each further index a symbol layer
of the sub-symbol of the symbol layer picked before it. -/
def QgsSymbol.layerAt : List Int → QgsSymbol → Option QgsSymbolLayer
  | [], _ => none
  | [i], symbol => if 0 ≤ i then symbol.symbolLayers[i.toNat]? else none
  | i :: j :: rest, symbol =>
    if 0 ≤ i then
      match symbol.symbolLayers[i.toNat]? with
      | some sl =>
        match sl.subSymbol with
        | some subSymbol => QgsSymbol.layerAt (j :: rest) subSymbol
        | none => none
      | none => none
    else none

/-- Order of the index paths in a pre-order walk: a path comes before each of its
extensions, and otherwise the first index in which two paths differ decides
(the lexicographic order). -/
def pathBefore (p q : List Int) : Prop :=
  List.Lex (fun a b : Int => a < b) p q

/-! ## A small project used for the concrete checks -/

/-- Mask marker of the layer "points": it masks one symbol layer of "roads" and
one of "rivers", and draws a sub-symbol with one simple marker. -/
def exMaskMarker : QgsSymbolLayer :=
  .mk "MaskMarker" [⟨"roads", ⟨"", [0]⟩⟩, ⟨"rivers", ⟨"", [0]⟩⟩]
    (some (.mk [.mk "SimpleMarker" [] none]))

/-- Rule-based renderer of "points": one rule "rule1" whose symbol has a simple
marker and the mask marker. -/
def exPointsRenderer : QgsFeatureRenderer :=
  { items := [.node NodeType.SymbolRule "rule1"
      [.leaf { identifier := "",
               entity := some (.SymbolEntity
                 (some (.mk [.mk "SimpleMarker" [] none, exMaskMarker]))) }]] }

/-- Labeling of "points": provider "lab1" has an enabled text mask over one
symbol layer of "roads"; provider "lab2" holds a reference to "roads" too, but
its text mask is disabled. -/
def exLabeling : QgsAbstractVectorLayerLabeling :=
  { subProviders := ["lab1", "lab2"],
    settings := fun key =>
      if key = "lab1" then
        { format := { mask := { enabled := true,
                                maskedSymbolLayers := [⟨"roads", ⟨"", [0]⟩⟩] } } }
      else
        { format := { mask := { enabled := false,
                                maskedSymbolLayers := [⟨"roads", ⟨"", [1]⟩⟩] } } } }

/-- Layer "points" of the example project. -/
def exPoints : QgsVectorLayer :=
  { id := "points", renderer := some exPointsRenderer, labeling := some exLabeling }

/-- Single-symbol renderer of "roads": one symbol with two line symbol layers. -/
def exRoadsRenderer : QgsFeatureRenderer :=
  { items := [.leaf { identifier := "",
                      entity := some (.SymbolEntity
                        (some (.mk [.mk "SimpleLine" [] none, .mk "SimpleLine" [] none]))) }] }

/-- Layer "roads" of the example project, the layer that is edited; it has no
labeling. -/
def exRoads : QgsVectorLayer :=
  { id := "roads", renderer := some exRoadsRenderer, labeling := none }

/-- Layer with neither renderer nor labeling. -/
def exBare : QgsVectorLayer :=
  { id := "bare", renderer := none, labeling := none }

/-- Example project, in the order of its layer ids. -/
def exProject : List (QString × QgsMapLayer) :=
  [("bare", .vectorLayer exBare), ("points", .vectorLayer exPoints), ("raster", .otherLayer),
   ("roads", .vectorLayer exRoads)]

/-- Selected sources of the example: the mask marker of "points" and its label
provider "lab1". -/
def exSources : List MaskSource :=
  [{ layerId := "points", isLabeling := false, symbolLayerId := ⟨"rule1", [1]⟩ },
   { layerId := "points", isLabeling := true, symbolLayerId := ⟨"lab1", []⟩ }]

/-- Selected destinations of the example: both symbol layers of "roads". -/
def exTargets : QSet QgsSymbolLayerId :=
  [⟨"", [0]⟩, ⟨"", [1]⟩]

/-- Label masks of the example: provider "lab1" of "points" masks both symbol
layers of "roads". -/
def exLabelMasks (vl : QgsVectorLayer) : LabelMasks :=
  if vl.id = "points" then [("lab1", [("roads", [⟨"", [0]⟩, ⟨"", [1]⟩])])] else []

/-- Symbol layers reached in the renderer of the `n`-th layer of a project. -/
def visitedAt (layers : List (QString × QgsMapLayer)) (n : Nat) :
    Option (List (QgsSymbolLayerId × QString × QgsSymbolLayerReferenceList)) :=
  match layers[n]? with
  | some (_, .vectorLayer vl) => vl.renderer.map QgsFeatureRenderer.visited
  | _ => none

/-- Mask list of the label provider `p` of the `n`-th layer of a project. -/
def providerMasksAt (layers : List (QString × QgsMapLayer)) (n : Nat) (p : QString) :
    Option QgsSymbolLayerReferenceList :=
  match layers[n]? with
  | some (_, .vectorLayer vl) => vl.labeling.map (fun labeling => labeling.masks p)
  | _ => none

/-- Whether a mask source names an existing symbol layer of type "MaskMarker": it
is a symbology source, and the visitor reaches a symbol layer of that type
under its symbol layer id in the renderer of the vector layer stored under
its layer id. -/
def namesMaskMarkerOf (layers : List (QString × QgsMapLayer)) (source : MaskSource) : Prop :=
  source.isLabeling = false
    ∧ ∃ layerIt ∈ layers, ∃ vl renderer, layerIt.2 = QgsMapLayer.vectorLayer vl
        ∧ layerIt.1 = source.layerId ∧ vl.renderer = some renderer
        ∧ ∃ e ∈ renderer.visited, e.1 = source.symbolLayerId ∧ e.2.1 = "MaskMarker"

/-- Whether only symbol layers of type "MaskMarker" carry masks in a project:
every other symbol layer that the visitor reaches has an empty mask list. -/
def onlyMaskMarkersCarryMasks (layers : List (QString × QgsMapLayer)) : Prop :=
  ∀ layerIt ∈ layers, ∀ vl renderer, layerIt.2 = QgsMapLayer.vectorLayer vl →
    vl.renderer = some renderer →
    ∀ e ∈ renderer.visited, e.2.1 ≠ "MaskMarker" → e.2.2 = []

/-! ## The visitor calls its callback along the pre-order of the symbol tree -/

theorem callOf_cons (key : QString) (rootPath : List Int) (idx : Int)
    (l : List (List Int × QgsSymbolLayer)) :
    (l.map (fun q => (idx :: q.1, q.2))).map (callOf key rootPath)
      = l.map (callOf key (rootPath ++ [idx])) := by
  simp [callOf, Function.comp_def]

mutual
theorem visitSymbol_captured {σ : Type} (cb : SymbolLayerCallback σ) (key leaf : QString) :
    ∀ (s : QgsSymbol) (rootPath : List Int) (st : σ),
      (SymbolLayerVisitor.visitSymbol cb key leaf s rootPath st).2
        = (s.preorder.map (callOf (key ++ leaf) rootPath)).foldl (callStep cb) st
  | .mk layers, rootPath, st => by
    simp only [SymbolLayerVisitor.visitSymbol, QgsSymbol.preorder]
    exact visitSymbolLoop_captured cb key leaf layers 0 rootPath st
theorem visitSymbolLoop_captured {σ : Type} (cb : SymbolLayerCallback σ) (key leaf : QString) :
    ∀ (layers : List QgsSymbolLayer) (idx : Int) (rootPath : List Int) (st : σ),
      (SymbolLayerVisitor.visitSymbolLoop cb key leaf layers idx rootPath st).2
        = ((QgsSymbol.preorderFrom layers idx).map (callOf (key ++ leaf) rootPath)).foldl
            (callStep cb) st
  | [], idx, rootPath, st => by
    simp [SymbolLayerVisitor.visitSymbolLoop, QgsSymbol.preorderFrom]
  | sl :: rest, idx, rootPath, st => by
    simp only [SymbolLayerVisitor.visitSymbolLoop, QgsSymbol.preorderFrom]
    rw [visitSymbolLoop_captured cb key leaf rest (idx + 1) rootPath,
      visitSymbolLayer_captured cb key leaf sl (rootPath ++ [idx])]
    simp only [List.map_append, List.map_cons, List.foldl_append, List.foldl_cons, callOf_cons]
    simp [callOf]
theorem visitSymbolLayer_captured {σ : Type} (cb : SymbolLayerCallback σ) (key leaf : QString) :
    ∀ (sl : QgsSymbolLayer) (indexPath : List Int) (st : σ),
      (SymbolLayerVisitor.visitSymbolLayer cb key leaf sl indexPath st).2
        = ((sl, (⟨key ++ leaf, indexPath⟩ : QgsSymbolLayerId))
            :: sl.descendants.map (callOf (key ++ leaf) indexPath)).foldl (callStep cb) st
  | .mk ty masks none, indexPath, st => by
    simp [SymbolLayerVisitor.visitSymbolLayer, QgsSymbolLayer.descendants, callStep]
  | .mk ty masks (some sub), indexPath, st => by
    simp only [SymbolLayerVisitor.visitSymbolLayer, QgsSymbolLayer.descendants]
    rw [visitSymbol_captured cb key leaf sub indexPath]
    simp [callStep]
end

mutual
theorem visitSymbol_preorder {σ : Type} (cb : SymbolLayerCallback σ)
    (f : QgsSymbolLayer → QgsSymbolLayerId → QgsSymbolLayerReferenceList)
    (hf : ∀ sl id st, (cb sl id st).1 = f sl id) (key leaf : QString) :
    ∀ (s : QgsSymbol) (rootPath : List Int) (st : σ),
      (SymbolLayerVisitor.visitSymbol cb key leaf s rootPath st).1.preorder.map entryView
        = s.preorder.map (fun q =>
            (q.1, q.2.layerType, f q.2 ⟨key ++ leaf, rootPath ++ q.1⟩))
  | .mk layers, rootPath, st => by
    simp only [SymbolLayerVisitor.visitSymbol, QgsSymbol.preorder]
    exact visitSymbolLoop_preorder cb f hf key leaf layers 0 rootPath st
theorem visitSymbolLoop_preorder {σ : Type} (cb : SymbolLayerCallback σ)
    (f : QgsSymbolLayer → QgsSymbolLayerId → QgsSymbolLayerReferenceList)
    (hf : ∀ sl id st, (cb sl id st).1 = f sl id) (key leaf : QString) :
    ∀ (layers : List QgsSymbolLayer) (idx : Int) (rootPath : List Int) (st : σ),
      (QgsSymbol.preorderFrom
          (SymbolLayerVisitor.visitSymbolLoop cb key leaf layers idx rootPath st).1 idx).map
          entryView
        = (QgsSymbol.preorderFrom layers idx).map (fun q =>
            (q.1, q.2.layerType, f q.2 ⟨key ++ leaf, rootPath ++ q.1⟩))
  | [], idx, rootPath, st => by
    simp [SymbolLayerVisitor.visitSymbolLoop, QgsSymbol.preorderFrom]
  | sl :: rest, idx, rootPath, st => by
    have h1 := visitSymbolLayer_preorder cb f hf key leaf sl (rootPath ++ [idx]) st
    have h2 := visitSymbolLoop_preorder cb f hf key leaf rest (idx + 1) rootPath
      (SymbolLayerVisitor.visitSymbolLayer cb key leaf sl (rootPath ++ [idx]) st).2
    simp only [SymbolLayerVisitor.visitSymbolLoop, QgsSymbol.preorderFrom, List.map_append,
      List.map_cons, List.map_map, h2]
    congr 1
    have h3 := congrArg (List.map (fun v : List Int × QString × QgsSymbolLayerReferenceList =>
      (idx :: v.1, v.2))) h1.2.2
    simp only [List.map_map] at h3
    simp only [entryView, h1.1, h1.2.1]
    simp only [Function.comp_def, entryView, List.append_assoc, List.singleton_append] at h3 ⊢
    rw [h3]
theorem visitSymbolLayer_preorder {σ : Type} (cb : SymbolLayerCallback σ)
    (f : QgsSymbolLayer → QgsSymbolLayerId → QgsSymbolLayerReferenceList)
    (hf : ∀ sl id st, (cb sl id st).1 = f sl id) (key leaf : QString) :
    ∀ (sl : QgsSymbolLayer) (indexPath : List Int) (st : σ),
      (SymbolLayerVisitor.visitSymbolLayer cb key leaf sl indexPath st).1.layerType
          = sl.layerType
        ∧ (SymbolLayerVisitor.visitSymbolLayer cb key leaf sl indexPath st).1.masks
          = f sl ⟨key ++ leaf, indexPath⟩
        ∧ (SymbolLayerVisitor.visitSymbolLayer cb key leaf sl indexPath st).1.descendants.map
            entryView
          = sl.descendants.map (fun q =>
              (q.1, q.2.layerType, f q.2 ⟨key ++ leaf, indexPath ++ q.1⟩))
  | .mk ty masks none, indexPath, st => by
    simp [SymbolLayerVisitor.visitSymbolLayer, QgsSymbolLayer.descendants,
      QgsSymbolLayer.layerType, QgsSymbolLayer.masks, hf]
  | .mk ty masks (some sub), indexPath, st => by
    have h := visitSymbol_preorder cb f hf key leaf sub indexPath
      (cb (.mk ty masks (some sub)) ⟨key ++ leaf, indexPath⟩ st).2
    simp only [SymbolLayerVisitor.visitSymbolLayer, QgsSymbolLayer.descendants,
      QgsSymbolLayer.layerType, QgsSymbolLayer.masks, hf, h, and_self]
end

mutual
theorem visitSymbol_mapMasks {σ : Type} (cb : SymbolLayerCallback σ)
    (g : QgsSymbolLayerReferenceList → QgsSymbolLayerReferenceList)
    (hg : ∀ sl id st, g (cb sl id st).1 = g sl.masks) (key leaf : QString) :
    ∀ (s : QgsSymbol) (rootPath : List Int) (st : σ),
      (SymbolLayerVisitor.visitSymbol cb key leaf s rootPath st).1.mapMasks g = s.mapMasks g
  | .mk layers, rootPath, st => by
    simp only [SymbolLayerVisitor.visitSymbol, QgsSymbol.mapMasks]
    rw [visitSymbolLoop_mapMasks cb g hg key leaf layers 0 rootPath st]
theorem visitSymbolLoop_mapMasks {σ : Type} (cb : SymbolLayerCallback σ)
    (g : QgsSymbolLayerReferenceList → QgsSymbolLayerReferenceList)
    (hg : ∀ sl id st, g (cb sl id st).1 = g sl.masks) (key leaf : QString) :
    ∀ (layers : List QgsSymbolLayer) (idx : Int) (rootPath : List Int) (st : σ),
      QgsSymbol.mapMasksList g
          (SymbolLayerVisitor.visitSymbolLoop cb key leaf layers idx rootPath st).1
        = QgsSymbol.mapMasksList g layers
  | [], idx, rootPath, st => by
    simp [SymbolLayerVisitor.visitSymbolLoop]
  | sl :: rest, idx, rootPath, st => by
    simp only [SymbolLayerVisitor.visitSymbolLoop, QgsSymbol.mapMasksList]
    rw [visitSymbolLayer_mapMasks cb g hg key leaf sl, visitSymbolLoop_mapMasks cb g hg key leaf rest]
theorem visitSymbolLayer_mapMasks {σ : Type} (cb : SymbolLayerCallback σ)
    (g : QgsSymbolLayerReferenceList → QgsSymbolLayerReferenceList)
    (hg : ∀ sl id st, g (cb sl id st).1 = g sl.masks) (key leaf : QString) :
    ∀ (sl : QgsSymbolLayer) (indexPath : List Int) (st : σ),
      (SymbolLayerVisitor.visitSymbolLayer cb key leaf sl indexPath st).1.mapMasks g
        = sl.mapMasks g
  | .mk ty masks none, indexPath, st => by
    have h := hg (.mk ty masks none) ⟨key ++ leaf, indexPath⟩ st
    simp only [QgsSymbolLayer.masks] at h
    simp [SymbolLayerVisitor.visitSymbolLayer, QgsSymbolLayer.mapMasks, h]
  | .mk ty masks (some sub), indexPath, st => by
    have h := hg (.mk ty masks (some sub)) ⟨key ++ leaf, indexPath⟩ st
    simp only [QgsSymbolLayer.masks] at h
    simp only [SymbolLayerVisitor.visitSymbolLayer, QgsSymbolLayer.mapMasks, h]
    rw [visitSymbol_mapMasks cb g hg key leaf sub]
end

/-! ## Walk of a renderer -/

theorem visit_captured {σ : Type} (cb : SymbolLayerCallback σ) (v : SymbolLayerVisitor σ)
    (leaf : StyleLeaf) :
    (SymbolLayerVisitor.visit cb v leaf).2
      = { mSymbolKey := v.mSymbolKey,
          captured := (leaf.calls v.mSymbolKey).foldl (callStep cb) v.captured } := by
  unfold SymbolLayerVisitor.visit StyleLeaf.calls
  split
  · simp [visitSymbol_captured]
  · rfl

theorem accept_node_rule {σ : Type} (cb : SymbolLayerCallback σ) (identifier : QString)
    (children : List StyleItem) (v : SymbolLayerVisitor σ) :
    StyleItem.accept cb (.node NodeType.SymbolRule identifier children) v
      = (.node NodeType.SymbolRule identifier
          (StyleItem.acceptAll cb children
            { mSymbolKey := identifier, captured := v.captured }).1,
         (StyleItem.acceptAll cb children
            { mSymbolKey := identifier, captured := v.captured }).2) := by
  simp [StyleItem.accept, SymbolLayerVisitor.visitEnter]

theorem accept_node_other {σ : Type} (cb : SymbolLayerCallback σ) (type : NodeType)
    (h : type ≠ NodeType.SymbolRule) (identifier : QString) (children : List StyleItem)
    (v : SymbolLayerVisitor σ) :
    StyleItem.accept cb (.node type identifier children) v
      = (.node type identifier children, v) := by
  simp [StyleItem.accept, SymbolLayerVisitor.visitEnter, h]

mutual
theorem accept_captured {σ : Type} (cb : SymbolLayerCallback σ) :
    ∀ (item : StyleItem) (v : SymbolLayerVisitor σ),
      (StyleItem.accept cb item v).2
        = { mSymbolKey := (item.calls v.mSymbolKey).2,
            captured := (item.calls v.mSymbolKey).1.foldl (callStep cb) v.captured }
  | .leaf styleLeaf, v => by
    simp [StyleItem.accept, StyleItem.calls, visit_captured]
  | .node type identifier children, v => by
    by_cases h : type = NodeType.SymbolRule
    · subst h
      rw [accept_node_rule, acceptAll_captured cb children]
      simp [StyleItem.calls]
    · rw [accept_node_other cb type h]
      simp [StyleItem.calls, h]
theorem acceptAll_captured {σ : Type} (cb : SymbolLayerCallback σ) :
    ∀ (items : List StyleItem) (v : SymbolLayerVisitor σ),
      (StyleItem.acceptAll cb items v).2
        = { mSymbolKey := (StyleItem.callsAll items v.mSymbolKey).2,
            captured := (StyleItem.callsAll items v.mSymbolKey).1.foldl (callStep cb)
              v.captured }
  | [], v => by
    simp [StyleItem.acceptAll, StyleItem.callsAll]
  | item :: rest, v => by
    simp only [StyleItem.acceptAll, StyleItem.callsAll]
    rw [acceptAll_captured cb rest, accept_captured cb item]
    simp [List.foldl_append]
end

theorem renderer_accept_captured {σ : Type} (cb : SymbolLayerCallback σ)
    (renderer : QgsFeatureRenderer) (st : σ) :
    (renderer.accept cb st).2 = renderer.calls.foldl (callStep cb) st := by
  simp [QgsFeatureRenderer.accept, QgsFeatureRenderer.calls, acceptAll_captured]

theorem preorder_view_to_calls (key : QString) (l l2 : List (List Int × QgsSymbolLayer))
    (f : QgsSymbolLayer → QgsSymbolLayerId → QgsSymbolLayerReferenceList)
    (h : l.map entryView
      = l2.map (fun q => (q.1, q.2.layerType, f q.2 ⟨key, [] ++ q.1⟩))) :
    (l.map (callOf key [])).map callView
      = (l2.map (callOf key [])).map (fun c => (c.2, c.1.layerType, f c.1 c.2)) := by
  have h2 := congrArg (List.map
    (fun v : List Int × QString × QgsSymbolLayerReferenceList =>
      ((⟨key, v.1⟩ : QgsSymbolLayerId), v.2))) h
  simpa [List.map_map, Function.comp_def, entryView, callOf, callView] using h2

theorem visit_calls {σ : Type} (cb : SymbolLayerCallback σ)
    (f : QgsSymbolLayer → QgsSymbolLayerId → QgsSymbolLayerReferenceList)
    (hf : ∀ sl id st, (cb sl id st).1 = f sl id) (v : SymbolLayerVisitor σ)
    (leaf : StyleLeaf) :
    ((SymbolLayerVisitor.visit cb v leaf).1.calls v.mSymbolKey).map callView
      = (leaf.calls v.mSymbolKey).map (fun c => (c.2, c.1.layerType, f c.1 c.2)) := by
  unfold SymbolLayerVisitor.visit
  split
  · rename_i symbol heq
    simp only [StyleLeaf.calls, heq]
    exact preorder_view_to_calls _ _ _ f
      (visitSymbol_preorder cb f hf v.mSymbolKey leaf.identifier symbol [] v.captured)
  · rename_i h
    have : leaf.calls v.mSymbolKey = [] := by
      unfold StyleLeaf.calls
      split
      · rename_i symbol heq
        exact absurd heq (h symbol)
      · rfl
    simp [this]

mutual
theorem accept_calls {σ : Type} (cb : SymbolLayerCallback σ)
    (f : QgsSymbolLayer → QgsSymbolLayerId → QgsSymbolLayerReferenceList)
    (hf : ∀ sl id st, (cb sl id st).1 = f sl id) :
    ∀ (item : StyleItem) (v : SymbolLayerVisitor σ),
      ((StyleItem.accept cb item v).1.calls v.mSymbolKey).1.map callView
          = (item.calls v.mSymbolKey).1.map (fun c => (c.2, c.1.layerType, f c.1 c.2))
        ∧ ((StyleItem.accept cb item v).1.calls v.mSymbolKey).2
          = (item.calls v.mSymbolKey).2
  | .leaf styleLeaf, v => by
    simp [StyleItem.accept, StyleItem.calls, visit_calls cb f hf]
  | .node type identifier children, v => by
    by_cases h : type = NodeType.SymbolRule
    · subst h
      have ih := acceptAll_calls cb f hf children
        { mSymbolKey := identifier, captured := v.captured }
      rw [accept_node_rule]
      simpa [StyleItem.calls] using ih
    · rw [accept_node_other cb type h]
      simp [StyleItem.calls, h]
theorem acceptAll_calls {σ : Type} (cb : SymbolLayerCallback σ)
    (f : QgsSymbolLayer → QgsSymbolLayerId → QgsSymbolLayerReferenceList)
    (hf : ∀ sl id st, (cb sl id st).1 = f sl id) :
    ∀ (items : List StyleItem) (v : SymbolLayerVisitor σ),
      ((StyleItem.callsAll (StyleItem.acceptAll cb items v).1 v.mSymbolKey).1).map callView
          = (StyleItem.callsAll items v.mSymbolKey).1.map
              (fun c => (c.2, c.1.layerType, f c.1 c.2))
        ∧ (StyleItem.callsAll (StyleItem.acceptAll cb items v).1 v.mSymbolKey).2
          = (StyleItem.callsAll items v.mSymbolKey).2
  | [], v => by
    simp [StyleItem.acceptAll, StyleItem.callsAll]
  | item :: rest, v => by
    have h1 := accept_calls cb f hf item v
    have h2 := acceptAll_calls cb f hf rest (StyleItem.accept cb item v).2
    have hk : (StyleItem.accept cb item v).2.mSymbolKey = (item.calls v.mSymbolKey).2 := by
      rw [accept_captured]
    rw [hk] at h2
    simp only [StyleItem.acceptAll, StyleItem.callsAll, List.map_append, h1.1, h1.2, h2.1, h2.2,
      and_self]
end

theorem renderer_accept_calls {σ : Type} (cb : SymbolLayerCallback σ)
    (f : QgsSymbolLayer → QgsSymbolLayerId → QgsSymbolLayerReferenceList)
    (hf : ∀ sl id st, (cb sl id st).1 = f sl id) (renderer : QgsFeatureRenderer) (st : σ) :
    (renderer.accept cb st).1.calls.map callView
      = renderer.calls.map (fun c => (c.2, c.1.layerType, f c.1 c.2)) := by
  simpa [QgsFeatureRenderer.accept, QgsFeatureRenderer.calls] using
    (acceptAll_calls cb f hf renderer.items { mSymbolKey := "", captured := st }).1

theorem foldl_recorder (l : List (QgsSymbolLayer × QgsSymbolLayerId))
    (seen : List (QgsSymbolLayerId × QString × QgsSymbolLayerReferenceList)) :
    l.foldl (callStep recorder) seen = seen ++ l.map callView := by
  induction l generalizing seen with
  | nil => simp
  | cons c rest ih => simp [ih, callStep, recorder, callView]

theorem visited_eq_calls (renderer : QgsFeatureRenderer) :
    renderer.visited = renderer.calls.map callView := by
  simp [QgsFeatureRenderer.visited, renderer_accept_captured, foldl_recorder]

theorem visited_accept {σ : Type} (cb : SymbolLayerCallback σ)
    (f : QgsSymbolLayerId → QString → QgsSymbolLayerReferenceList → QgsSymbolLayerReferenceList)
    (hf : ∀ sl id st, (cb sl id st).1 = f id sl.layerType sl.masks)
    (renderer : QgsFeatureRenderer) (st : σ) :
    (renderer.accept cb st).1.visited
      = renderer.visited.map (fun e => (e.1, e.2.1, f e.1 e.2.1 e.2.2)) := by
  rw [visited_eq_calls, visited_eq_calls,
    renderer_accept_calls cb (fun sl id => f id sl.layerType sl.masks) hf]
  simp [List.map_map, Function.comp_def, callView]

theorem visit_mapMasks {σ : Type} (cb : SymbolLayerCallback σ)
    (g : QgsSymbolLayerReferenceList → QgsSymbolLayerReferenceList)
    (hg : ∀ sl id st, g (cb sl id st).1 = g sl.masks) (v : SymbolLayerVisitor σ)
    (leaf : StyleLeaf) :
    (SymbolLayerVisitor.visit cb v leaf).1.mapMasks g = leaf.mapMasks g := by
  unfold SymbolLayerVisitor.visit
  split
  · rename_i symbol heq
    simp [StyleLeaf.mapMasks, heq, QgsStyleEntity.mapMasks, visitSymbol_mapMasks cb g hg]
  · rfl

mutual
theorem accept_mapMasks {σ : Type} (cb : SymbolLayerCallback σ)
    (g : QgsSymbolLayerReferenceList → QgsSymbolLayerReferenceList)
    (hg : ∀ sl id st, g (cb sl id st).1 = g sl.masks) :
    ∀ (item : StyleItem) (v : SymbolLayerVisitor σ),
      (StyleItem.accept cb item v).1.mapMasks g = item.mapMasks g
  | .leaf styleLeaf, v => by
    simp [StyleItem.accept, StyleItem.mapMasks, visit_mapMasks cb g hg]
  | .node type identifier children, v => by
    by_cases h : type = NodeType.SymbolRule
    · subst h
      rw [accept_node_rule]
      simp only [StyleItem.mapMasks]
      rw [acceptAll_mapMasks cb g hg children]
    · rw [accept_node_other cb type h]
theorem acceptAll_mapMasks {σ : Type} (cb : SymbolLayerCallback σ)
    (g : QgsSymbolLayerReferenceList → QgsSymbolLayerReferenceList)
    (hg : ∀ sl id st, g (cb sl id st).1 = g sl.masks) :
    ∀ (items : List StyleItem) (v : SymbolLayerVisitor σ),
      StyleItem.mapMasksAll g (StyleItem.acceptAll cb items v).1 = StyleItem.mapMasksAll g items
  | [], v => by
    simp [StyleItem.acceptAll]
  | item :: rest, v => by
    simp only [StyleItem.acceptAll, StyleItem.mapMasksAll]
    rw [accept_mapMasks cb g hg item, acceptAll_mapMasks cb g hg rest]
end

theorem renderer_accept_mapMasks {σ : Type} (cb : SymbolLayerCallback σ)
    (g : QgsSymbolLayerReferenceList → QgsSymbolLayerReferenceList)
    (hg : ∀ sl id st, g (cb sl id st).1 = g sl.masks) (renderer : QgsFeatureRenderer)
    (st : σ) :
    (renderer.accept cb st).1.mapMasks g = renderer.mapMasks g := by
  simp [QgsFeatureRenderer.accept, QgsFeatureRenderer.mapMasks, acceptAll_mapMasks cb g hg]

/-! ## Loops of `apply` -/

theorem foldl_keep {α : Type} (p : α → Prop) [DecidablePred p] (l init : List α) :
    l.foldl (fun acc x => if p x then acc ++ [x] else acc) init
      = init ++ l.filter (fun x => decide (p x)) := by
  induction l generalizing init with
  | nil => simp
  | cons x rest ih =>
    by_cases h : p x <;> simp [ih, h]

theorem foldl_snoc_map {α β : Type} (f : α → β) (l : List α) (init : List β) :
    l.foldl (fun acc x => acc ++ [f x]) init = init ++ l.map f := by
  induction l generalizing init with
  | nil => simp
  | cons x rest ih => simp [ih]

theorem foldl_sources (p : MaskSource → Prop) [DecidablePred p] (extra : QgsSymbolLayerReferenceList)
    (S : List MaskSource) (init : QgsSymbolLayerReferenceList × QSet QString) :
    S.foldl (fun (acc : QgsSymbolLayerReferenceList × QSet QString) source =>
        if p source then (acc.1 ++ extra, acc.2.insert source.layerId) else acc) init
      = (init.1 ++ (S.filter (fun s => decide (p s))).flatMap (fun _ => extra),
         (S.filter (fun s => decide (p s))).foldl (fun ltr s => ltr.insert s.layerId) init.2) := by
  induction S generalizing init with
  | nil => simp
  | cons s rest ih =>
    by_cases h : p s <;> simp [ih, h]

theorem maskSetter_eq (mLayer : QgsVectorLayer) (S : List MaskSource)
    (T : QSet QgsSymbolLayerId) (key : QString) (sl : QgsSymbolLayer)
    (slId : QgsSymbolLayerId) (ltr : QSet QString) :
    QgsMaskingWidget.maskSetter mLayer S T key sl slId ltr
      = if sl.layerType = "MaskMarker" then
          (rebuiltMasks mLayer.id (S.filter (MaskSource.namesSymbolLayer key slId)) T sl.masks,
           (S.filter (MaskSource.namesSymbolLayer key slId)).foldl
              (fun ltr s => ltr.insert s.layerId) ltr)
        else (sl.masks, ltr) := by
  unfold QgsMaskingWidget.maskSetter
  by_cases h : sl.layerType = "MaskMarker"
  · simp only [h, if_true, foldl_snoc_map, foldl_keep]
    rw [foldl_sources]
    rfl
  · simp [h]

mutual
theorem visitSymbol_fst_congr {σ τ : Type} (cb : SymbolLayerCallback σ)
    (cb2 : SymbolLayerCallback τ)
    (h : ∀ sl id st st2, (cb sl id st).1 = (cb2 sl id st2).1) (key leaf : QString) :
    ∀ (s : QgsSymbol) (rootPath : List Int) (st : σ) (st2 : τ),
      (SymbolLayerVisitor.visitSymbol cb key leaf s rootPath st).1
        = (SymbolLayerVisitor.visitSymbol cb2 key leaf s rootPath st2).1
  | .mk layers, rootPath, st, st2 => by
    simp only [SymbolLayerVisitor.visitSymbol]
    rw [visitSymbolLoop_fst_congr cb cb2 h key leaf layers 0 rootPath st st2]
theorem visitSymbolLoop_fst_congr {σ τ : Type} (cb : SymbolLayerCallback σ)
    (cb2 : SymbolLayerCallback τ)
    (h : ∀ sl id st st2, (cb sl id st).1 = (cb2 sl id st2).1) (key leaf : QString) :
    ∀ (layers : List QgsSymbolLayer) (idx : Int) (rootPath : List Int) (st : σ) (st2 : τ),
      (SymbolLayerVisitor.visitSymbolLoop cb key leaf layers idx rootPath st).1
        = (SymbolLayerVisitor.visitSymbolLoop cb2 key leaf layers idx rootPath st2).1
  | [], idx, rootPath, st, st2 => by
    simp [SymbolLayerVisitor.visitSymbolLoop]
  | sl :: rest, idx, rootPath, st, st2 => by
    simp only [SymbolLayerVisitor.visitSymbolLoop]
    rw [visitSymbolLayer_fst_congr cb cb2 h key leaf sl (rootPath ++ [idx]) st st2,
      visitSymbolLoop_fst_congr cb cb2 h key leaf rest (idx + 1) rootPath
        (SymbolLayerVisitor.visitSymbolLayer cb key leaf sl (rootPath ++ [idx]) st).2
        (SymbolLayerVisitor.visitSymbolLayer cb2 key leaf sl (rootPath ++ [idx]) st2).2]
theorem visitSymbolLayer_fst_congr {σ τ : Type} (cb : SymbolLayerCallback σ)
    (cb2 : SymbolLayerCallback τ)
    (h : ∀ sl id st st2, (cb sl id st).1 = (cb2 sl id st2).1) (key leaf : QString) :
    ∀ (sl : QgsSymbolLayer) (indexPath : List Int) (st : σ) (st2 : τ),
      (SymbolLayerVisitor.visitSymbolLayer cb key leaf sl indexPath st).1
        = (SymbolLayerVisitor.visitSymbolLayer cb2 key leaf sl indexPath st2).1
  | .mk ty masks none, indexPath, st, st2 => by
    simp only [SymbolLayerVisitor.visitSymbolLayer]
    rw [h (.mk ty masks none) ⟨key ++ leaf, indexPath⟩ st st2]
  | .mk ty masks (some sub), indexPath, st, st2 => by
    simp only [SymbolLayerVisitor.visitSymbolLayer]
    rw [h (.mk ty masks (some sub)) ⟨key ++ leaf, indexPath⟩ st st2,
      visitSymbol_fst_congr cb cb2 h key leaf sub indexPath
        (cb (.mk ty masks (some sub)) ⟨key ++ leaf, indexPath⟩ st).2
        (cb2 (.mk ty masks (some sub)) ⟨key ++ leaf, indexPath⟩ st2).2]
end

theorem visit_fst_congr {σ τ : Type} (cb : SymbolLayerCallback σ)
    (cb2 : SymbolLayerCallback τ)
    (h : ∀ sl id st st2, (cb sl id st).1 = (cb2 sl id st2).1)
    (v : SymbolLayerVisitor σ) (v2 : SymbolLayerVisitor τ)
    (hk : v.mSymbolKey = v2.mSymbolKey) (leaf : StyleLeaf) :
    (SymbolLayerVisitor.visit cb v leaf).1 = (SymbolLayerVisitor.visit cb2 v2 leaf).1 := by
  unfold SymbolLayerVisitor.visit
  split
  · rename_i symbol heq
    simp only
    rw [hk, visitSymbol_fst_congr cb cb2 h v2.mSymbolKey leaf.identifier symbol []
      v.captured v2.captured]
  · rfl

mutual
theorem accept_fst_congr {σ τ : Type} (cb : SymbolLayerCallback σ)
    (cb2 : SymbolLayerCallback τ)
    (h : ∀ sl id st st2, (cb sl id st).1 = (cb2 sl id st2).1) :
    ∀ (item : StyleItem) (v : SymbolLayerVisitor σ) (v2 : SymbolLayerVisitor τ),
      v.mSymbolKey = v2.mSymbolKey →
      (StyleItem.accept cb item v).1 = (StyleItem.accept cb2 item v2).1
  | .leaf styleLeaf, v, v2, hk => by
    simp only [StyleItem.accept]
    rw [visit_fst_congr cb cb2 h v v2 hk]
  | .node type identifier children, v, v2, hk => by
    by_cases ht : type = NodeType.SymbolRule
    · subst ht
      rw [accept_node_rule, accept_node_rule]
      simp only
      rw [acceptAll_fst_congr cb cb2 h children
        { mSymbolKey := identifier, captured := v.captured }
        { mSymbolKey := identifier, captured := v2.captured } rfl]
    · rw [accept_node_other cb type ht, accept_node_other cb2 type ht]
theorem acceptAll_fst_congr {σ τ : Type} (cb : SymbolLayerCallback σ)
    (cb2 : SymbolLayerCallback τ)
    (h : ∀ sl id st st2, (cb sl id st).1 = (cb2 sl id st2).1) :
    ∀ (items : List StyleItem) (v : SymbolLayerVisitor σ) (v2 : SymbolLayerVisitor τ),
      v.mSymbolKey = v2.mSymbolKey →
      (StyleItem.acceptAll cb items v).1 = (StyleItem.acceptAll cb2 items v2).1
  | [], v, v2, hk => by
    simp [StyleItem.acceptAll]
  | item :: rest, v, v2, hk => by
    simp only [StyleItem.acceptAll]
    rw [accept_fst_congr cb cb2 h item v v2 hk,
      acceptAll_fst_congr cb cb2 h rest (StyleItem.accept cb item v).2
        (StyleItem.accept cb2 item v2).2 (by rw [accept_captured, accept_captured, hk])]
end

theorem renderer_accept_fst_congr {σ τ : Type} (cb : SymbolLayerCallback σ)
    (cb2 : SymbolLayerCallback τ)
    (h : ∀ sl id st st2, (cb sl id st).1 = (cb2 sl id st2).1)
    (renderer : QgsFeatureRenderer) (st : σ) (st2 : τ) :
    (renderer.accept cb st).1 = (renderer.accept cb2 st2).1 := by
  simp only [QgsFeatureRenderer.accept]
  rw [acceptAll_fst_congr cb cb2 h renderer.items { mSymbolKey := "", captured := st }
    { mSymbolKey := "", captured := st2 } rfl]

theorem mem_foldl_insert (M : List MaskSource) (ltr : QSet QString) (x : QString) :
    x ∈ M.foldl (fun ltr s => ltr.insert s.layerId) ltr ↔ x ∈ ltr ∨ ∃ s ∈ M, s.layerId = x := by
  induction M generalizing ltr with
  | nil => simp
  | cons s rest ih =>
    rw [List.foldl_cons, ih]
    simp only [QSet.insert, List.mem_insert_iff, List.mem_cons, exists_eq_or_imp]
    constructor
    · rintro ((h | h) | h)
      · exact Or.inr (Or.inl h.symm)
      · exact Or.inl h
      · exact Or.inr (Or.inr h)
    · rintro (h | h | h)
      · exact Or.inl (Or.inr h)
      · exact Or.inl (Or.inl h.symm)
      · exact Or.inr h

theorem resetLabelMasks_eq (mLayer : QgsVectorLayer) (S : List MaskSource)
    (T : QSet QgsSymbolLayerId) (key : QString)
    (acc : QgsAbstractVectorLayerLabeling × QSet QString) (p : QString) :
    QgsMaskingWidget.resetLabelMasks mLayer S T key acc p
      = if acc.1.maskEnabled p = true then
          (acc.1.setSettings
            { format := { mask := { enabled := true,
                                    maskedSymbolLayers := rebuiltMasks mLayer.id
                                      (S.filter (MaskSource.namesLabelProvider key p)) T
                                      (acc.1.masks p) } } } p,
           (S.filter (MaskSource.namesLabelProvider key p)).foldl
              (fun ltr s => ltr.insert s.layerId) acc.2)
        else acc := by
  unfold QgsMaskingWidget.resetLabelMasks
  by_cases h : acc.1.maskEnabled p = true
  · have h2 : (acc.1.settings p).format.mask.enabled = true := h
    simp only [h, h2, if_true, not_true_eq_false, if_false, foldl_snoc_map, foldl_keep]
    rw [foldl_sources]
    rfl
  · have h2 : ¬ (acc.1.settings p).format.mask.enabled = true := h
    simp [h, h2]

theorem rebuiltMasks_idem (L : QString) (M : List MaskSource) (T : List QgsSymbolLayerId)
    (old : QgsSymbolLayerReferenceList) :
    rebuiltMasks L M T (rebuiltMasks L M T old) = rebuiltMasks L M T old := by
  unfold rebuiltMasks
  simp [List.filter_append, List.filter_flatMap, List.filter_map, Function.comp_def]

theorem rebuiltMasks_keep (L : QString) (M : List MaskSource) (T : List QgsSymbolLayerId)
    (old : QgsSymbolLayerReferenceList) :
    (rebuiltMasks L M T old).filter (fun ref => decide (ref.layerId ≠ L))
      = old.filter (fun ref => decide (ref.layerId ≠ L)) := by
  unfold rebuiltMasks
  simp [List.filter_append, List.filter_flatMap, List.filter_map, Function.comp_def]

theorem rebuiltMasks_new (L : QString) (M : List MaskSource) (T : List QgsSymbolLayerId)
    (old : QgsSymbolLayerReferenceList) :
    (rebuiltMasks L M T old).filter (fun ref => decide (ref.layerId = L))
      = M.flatMap (fun _ => T.map (fun maskedId => { layerId := L, symbolLayerId := maskedId })) := by
  unfold rebuiltMasks
  simp [List.filter_append, List.filter_flatMap, List.filter_map, Function.comp_def]

theorem resetLabelMasks_fold (mLayer : QgsVectorLayer) (S : List MaskSource)
    (T : QSet QgsSymbolLayerId) (key : QString) :
    ∀ (ps : List QString) (lab : QgsAbstractVectorLayerLabeling) (ltr : QSet QString),
      (ps.foldl (QgsMaskingWidget.resetLabelMasks mLayer S T key) (lab, ltr)).1.subProviders
          = lab.subProviders
        ∧ ∀ p,
          (ps.foldl (QgsMaskingWidget.resetLabelMasks mLayer S T key) (lab, ltr)).1.maskEnabled p
              = lab.maskEnabled p
            ∧ (ps.foldl (QgsMaskingWidget.resetLabelMasks mLayer S T key) (lab, ltr)).1.masks p
              = if p ∈ ps ∧ lab.maskEnabled p = true then
                  rebuiltMasks mLayer.id (S.filter (MaskSource.namesLabelProvider key p)) T
                    (lab.masks p)
                else lab.masks p
  | [], lab, ltr => by simp
  | q :: rest, lab, ltr => by
    rw [List.foldl_cons, resetLabelMasks_eq]
    by_cases hq : lab.maskEnabled q = true
    · dsimp only
      rw [if_pos hq]
      have ih := resetLabelMasks_fold mLayer S T key rest
        (lab.setSettings
          { format := { mask := { enabled := true,
                                  maskedSymbolLayers := rebuiltMasks mLayer.id
                                    (S.filter (MaskSource.namesLabelProvider key q)) T
                                    (lab.masks q) } } } q)
        ((S.filter (MaskSource.namesLabelProvider key q)).foldl
          (fun ltr s => ltr.insert s.layerId) ltr)
      refine ⟨ih.1, fun p => ?_⟩
      have ihp := ih.2 p
      by_cases hp : p = q
      · subst hp
        have he : (lab.setSettings
            { format := { mask := { enabled := true,
                                    maskedSymbolLayers := rebuiltMasks mLayer.id
                                      (S.filter (MaskSource.namesLabelProvider key p)) T
                                      (lab.masks p) } } } p).maskEnabled p = true := by
          simp [QgsAbstractVectorLayerLabeling.setSettings,
            QgsAbstractVectorLayerLabeling.maskEnabled]
        have hm : (lab.setSettings
            { format := { mask := { enabled := true,
                                    maskedSymbolLayers := rebuiltMasks mLayer.id
                                      (S.filter (MaskSource.namesLabelProvider key p)) T
                                      (lab.masks p) } } } p).masks p
            = rebuiltMasks mLayer.id (S.filter (MaskSource.namesLabelProvider key p)) T
                (lab.masks p) := by
          simp [QgsAbstractVectorLayerLabeling.setSettings,
            QgsAbstractVectorLayerLabeling.masks]
        rw [he, hm] at ihp
        refine ⟨by rw [ihp.1, hq], ?_⟩
        rw [ihp.2]
        simp [hq, rebuiltMasks_idem]
      · have he : (lab.setSettings
            { format := { mask := { enabled := true,
                                    maskedSymbolLayers := rebuiltMasks mLayer.id
                                      (S.filter (MaskSource.namesLabelProvider key q)) T
                                      (lab.masks q) } } } q).maskEnabled p
            = lab.maskEnabled p := by
          simp [QgsAbstractVectorLayerLabeling.setSettings,
            QgsAbstractVectorLayerLabeling.maskEnabled, hp]
        have hm : (lab.setSettings
            { format := { mask := { enabled := true,
                                    maskedSymbolLayers := rebuiltMasks mLayer.id
                                      (S.filter (MaskSource.namesLabelProvider key q)) T
                                      (lab.masks q) } } } q).masks p
            = lab.masks p := by
          simp [QgsAbstractVectorLayerLabeling.setSettings,
            QgsAbstractVectorLayerLabeling.masks, hp]
        rw [he, hm] at ihp
        refine ⟨ihp.1, ?_⟩
        rw [ihp.2]
        simp [hp]
    · dsimp only
      rw [if_neg hq]
      have ih := resetLabelMasks_fold mLayer S T key rest lab ltr
      refine ⟨ih.1, fun p => ⟨(ih.2 p).1, ?_⟩⟩
      rw [(ih.2 p).2]
      by_cases hp : p = q
      · subst hp
        simp [hq]
      · simp [hp]

theorem resetLabelMasks_fold_fst (mLayer : QgsVectorLayer) (S : List MaskSource)
    (T : QSet QgsSymbolLayerId) (key : QString) :
    ∀ (ps : List QString) (lab : QgsAbstractVectorLayerLabeling) (ltr ltr2 : QSet QString),
      (ps.foldl (QgsMaskingWidget.resetLabelMasks mLayer S T key) (lab, ltr)).1
        = (ps.foldl (QgsMaskingWidget.resetLabelMasks mLayer S T key) (lab, ltr2)).1
  | [], lab, ltr, ltr2 => by simp
  | q :: rest, lab, ltr, ltr2 => by
    rw [List.foldl_cons, List.foldl_cons, resetLabelMasks_eq, resetLabelMasks_eq]
    by_cases hq : lab.maskEnabled q = true
    · dsimp only
      rw [if_pos hq, if_pos hq]
      exact resetLabelMasks_fold_fst mLayer S T key rest _ _ _
    · dsimp only
      rw [if_neg hq, if_neg hq]
      exact resetLabelMasks_fold_fst mLayer S T key rest _ _ _

theorem resetLabelMasks_fold_snd (mLayer : QgsVectorLayer) (S : List MaskSource)
    (T : QSet QgsSymbolLayerId) (key : QString) (x : QString) :
    ∀ (ps : List QString) (lab : QgsAbstractVectorLayerLabeling) (ltr : QSet QString),
      x ∈ (ps.foldl (QgsMaskingWidget.resetLabelMasks mLayer S T key) (lab, ltr)).2
        ↔ x ∈ ltr ∨ ∃ p ∈ ps, lab.maskEnabled p = true
            ∧ ∃ s ∈ S, MaskSource.namesLabelProvider key p s = true ∧ s.layerId = x
  | [], lab, ltr => by simp
  | q :: rest, lab, ltr => by
    rw [List.foldl_cons, resetLabelMasks_eq]
    by_cases hq : lab.maskEnabled q = true
    · dsimp only
      rw [if_pos hq]
      rw [resetLabelMasks_fold_snd mLayer S T key x rest, mem_foldl_insert]
      have he : ∀ p, (lab.setSettings
            { format := { mask := { enabled := true,
                                    maskedSymbolLayers := rebuiltMasks mLayer.id
                                      (S.filter (MaskSource.namesLabelProvider key q)) T
                                      (lab.masks q) } } } q).maskEnabled p
            = lab.maskEnabled p := by
        intro p
        by_cases hp : p = q
        · subst hp
          simp [QgsAbstractVectorLayerLabeling.setSettings,
            QgsAbstractVectorLayerLabeling.maskEnabled] at hq ⊢
          exact hq
        · simp [QgsAbstractVectorLayerLabeling.setSettings,
            QgsAbstractVectorLayerLabeling.maskEnabled, hp]
      simp only [he, List.mem_filter, List.mem_cons, exists_eq_or_imp, hq, true_and]
      constructor
      · rintro ((h | ⟨s, ⟨hs, hn⟩, hx⟩) | h)
        · exact Or.inl h
        · exact Or.inr (Or.inl ⟨s, hs, hn, hx⟩)
        · exact Or.inr (Or.inr h)
      · rintro (h | ⟨s, hs, hn, hx⟩ | h)
        · exact Or.inl (Or.inl h)
        · exact Or.inl (Or.inr ⟨s, ⟨hs, hn⟩, hx⟩)
        · exact Or.inr h
    · dsimp only
      rw [if_neg hq]
      rw [resetLabelMasks_fold_snd mLayer S T key x rest]
      simp [hq]

theorem maskSetter_fst (mLayer : QgsVectorLayer) (S : List MaskSource)
    (T : QSet QgsSymbolLayerId) (key : QString) (sl : QgsSymbolLayer)
    (slId : QgsSymbolLayerId) (ltr : QSet QString) :
    (QgsMaskingWidget.maskSetter mLayer S T key sl slId ltr).1
      = rewrittenMasks mLayer.id S T key slId sl.layerType sl.masks := by
  rw [maskSetter_eq]
  unfold rewrittenMasks
  split <;> rfl

theorem maskSetter_fold_snd (mLayer : QgsVectorLayer) (S : List MaskSource)
    (T : QSet QgsSymbolLayerId) (key : QString) (x : QString) :
    ∀ (calls : List (QgsSymbolLayer × QgsSymbolLayerId)) (ltr : QSet QString),
      x ∈ calls.foldl (callStep (QgsMaskingWidget.maskSetter mLayer S T key)) ltr
        ↔ x ∈ ltr ∨ ∃ c ∈ calls, c.1.layerType = "MaskMarker"
            ∧ ∃ s ∈ S, MaskSource.namesSymbolLayer key c.2 s = true ∧ s.layerId = x
  | [], ltr => by simp
  | c :: rest, ltr => by
    rw [List.foldl_cons, maskSetter_fold_snd mLayer S T key x rest]
    simp only [callStep, maskSetter_eq, List.mem_cons, exists_eq_or_imp]
    by_cases hc : c.1.layerType = "MaskMarker"
    · rw [if_pos hc]
      simp only [mem_foldl_insert, List.mem_filter, hc, true_and]
      constructor
      · rintro ((h | ⟨s, ⟨hs, hn⟩, hx⟩) | h)
        · exact Or.inl h
        · exact Or.inr (Or.inl ⟨s, hs, hn, hx⟩)
        · exact Or.inr (Or.inr h)
      · rintro (h | ⟨s, hs, hn, hx⟩ | h)
        · exact Or.inl (Or.inl h)
        · exact Or.inl (Or.inr ⟨s, ⟨hs, hn⟩, hx⟩)
        · exact Or.inr h
    · rw [if_neg hc]
      simp [hc]

theorem applyVectorLayer_fst (mLayer : QgsVectorLayer) (S : List MaskSource)
    (T : QSet QgsSymbolLayerId) (key : QString) (vl : QgsVectorLayer)
    (ltr ltr2 : QSet QString) :
    (QgsMaskingWidget.applyVectorLayer mLayer S T key vl ltr).1
      = (QgsMaskingWidget.applyVectorLayer mLayer S T key vl ltr2).1 := by
  unfold QgsMaskingWidget.applyVectorLayer
  have hr : ∀ renderer : QgsFeatureRenderer,
      (renderer.accept (QgsMaskingWidget.maskSetter mLayer S T key) ltr).1
        = (renderer.accept (QgsMaskingWidget.maskSetter mLayer S T key) ltr2).1 := by
    intro renderer
    apply renderer_accept_fst_congr
    intro sl id st st2
    rw [maskSetter_fst, maskSetter_fst]
  cases hren : vl.renderer with
  | none =>
    cases hlab : vl.labeling with
    | none => rfl
    | some labeling =>
      simp only
      rw [resetLabelMasks_fold_fst mLayer S T key labeling.subProviders labeling ltr ltr2]
  | some renderer =>
    cases hlab : vl.labeling with
    | none => simp only [hr]
    | some labeling =>
      simp only [hr]
      rw [resetLabelMasks_fold_fst mLayer S T key labeling.subProviders labeling _
        (renderer.accept (QgsMaskingWidget.maskSetter mLayer S T key) ltr2).2]

theorem applyVectorLayer_renderer (mLayer : QgsVectorLayer) (S : List MaskSource)
    (T : QSet QgsSymbolLayerId) (key : QString) (vl : QgsVectorLayer) (ltr : QSet QString) :
    (QgsMaskingWidget.applyVectorLayer mLayer S T key vl ltr).1.renderer
      = vl.renderer.map (fun renderer =>
          (renderer.accept (QgsMaskingWidget.maskSetter mLayer S T key) ltr).1) := by
  unfold QgsMaskingWidget.applyVectorLayer
  cases hren : vl.renderer <;> cases hlab : vl.labeling <;> rfl

theorem applyVectorLayer_labeling (mLayer : QgsVectorLayer) (S : List MaskSource)
    (T : QSet QgsSymbolLayerId) (key : QString) (vl : QgsVectorLayer) (ltr : QSet QString) :
    (QgsMaskingWidget.applyVectorLayer mLayer S T key vl ltr).1.labeling
      = vl.labeling.map (fun labeling =>
          (labeling.subProviders.foldl (QgsMaskingWidget.resetLabelMasks mLayer S T key)
            (labeling, [])).1) := by
  rw [applyVectorLayer_fst mLayer S T key vl ltr []]
  unfold QgsMaskingWidget.applyVectorLayer
  cases hren : vl.renderer <;> cases hlab : vl.labeling
  · rfl
  · rfl
  · rfl
  · simp only [Option.map_some']
    rw [resetLabelMasks_fold_fst mLayer S T key _ _ _ []]

theorem applyVectorLayer_id (mLayer : QgsVectorLayer) (S : List MaskSource)
    (T : QSet QgsSymbolLayerId) (key : QString) (vl : QgsVectorLayer) (ltr : QSet QString) :
    (QgsMaskingWidget.applyVectorLayer mLayer S T key vl ltr).1.id = vl.id := by
  unfold QgsMaskingWidget.applyVectorLayer
  cases hren : vl.renderer <;> cases hlab : vl.labeling <;> rfl

theorem applyVectorLayer_snd (mLayer : QgsVectorLayer) (S : List MaskSource)
    (T : QSet QgsSymbolLayerId) (key : QString) (vl : QgsVectorLayer) (ltr : QSet QString)
    (x : QString) :
    x ∈ (QgsMaskingWidget.applyVectorLayer mLayer S T key vl ltr).2
      ↔ x ∈ ltr ∨ ∃ s, s.layerId = x
          ∧ (selectsSymbolLayerOf S key vl s ∨ selectsLabelProviderOf S key vl s) := by
  unfold QgsMaskingWidget.applyVectorLayer selectsSymbolLayerOf selectsLabelProviderOf
  cases hren : vl.renderer with
  | none =>
    cases hlab : vl.labeling with
    | none => simp
    | some labeling =>
      simp only [resetLabelMasks_fold_snd, Option.some.injEq, exists_eq_left', false_and,
        exists_false, false_or, reduceCtorEq]
      constructor
      · rintro (h | ⟨p, hp, he, s, hs, hn, hx⟩)
        · exact Or.inl h
        · exact Or.inr ⟨s, hx, p, hp, he, hs, hn⟩
      · rintro (h | ⟨s, hx, p, hp, he, hs, hn⟩)
        · exact Or.inl h
        · exact Or.inr ⟨p, hp, he, s, hs, hn, hx⟩
  | some renderer =>
    cases hlab : vl.labeling with
    | none =>
      simp only [renderer_accept_captured, maskSetter_fold_snd, Option.some.injEq,
        exists_eq_left', false_and, exists_false, or_false, reduceCtorEq, visited_eq_calls,
        List.mem_map]
      constructor
      · rintro (h | ⟨c, hc, ht, s, hs, hn, hx⟩)
        · exact Or.inl h
        · exact Or.inr ⟨s, hx, callView c, ⟨c, hc, rfl⟩, ht, hs, hn⟩
      · rintro (h | ⟨s, hx, e, ⟨c, hc, rfl⟩, ht, hs, hn⟩)
        · exact Or.inl h
        · exact Or.inr ⟨c, hc, ht, s, hs, hn, hx⟩
    | some labeling =>
      simp only [resetLabelMasks_fold_snd, renderer_accept_captured, maskSetter_fold_snd,
        Option.some.injEq, exists_eq_left', visited_eq_calls, List.mem_map]
      constructor
      · rintro ((h | ⟨c, hc, ht, s, hs, hn, hx⟩) | ⟨p, hp, he, s, hs, hn, hx⟩)
        · exact Or.inl h
        · exact Or.inr ⟨s, hx, Or.inl ⟨callView c, ⟨c, hc, rfl⟩, ht, hs, hn⟩⟩
        · exact Or.inr ⟨s, hx, Or.inr ⟨p, hp, he, hs, hn⟩⟩
      · rintro (h | ⟨s, hx, ⟨e, ⟨c, hc, rfl⟩, ht, hs, hn⟩ | ⟨p, hp, he, hs, hn⟩⟩)
        · exact Or.inl (Or.inl h)
        · exact Or.inl (Or.inr ⟨c, hc, ht, s, hs, hn, hx⟩)
        · exact Or.inr ⟨p, hp, he, s, hs, hn, hx⟩

theorem apply_loop (mLayer : QgsVectorLayer) (S : List MaskSource)
    (T : QSet QgsSymbolLayerId) (x : QString) :
    ∀ (layers : List (QString × QgsMapLayer))
      (acc : List (QString × QgsMapLayer) × QSet QString),
      (layers.foldl
        (fun (acc : List (QString × QgsMapLayer) × QSet QString) layerIt =>
          match layerIt.2.asVectorLayer with
          | none => (acc.1 ++ [layerIt], acc.2)
          | some vl =>
            let a := QgsMaskingWidget.applyVectorLayer mLayer S T layerIt.1 vl acc.2
            (acc.1 ++ [(layerIt.1, QgsMapLayer.vectorLayer a.1)], a.2)) acc).1
          = acc.1 ++ layers.map (QgsMaskingWidget.applied mLayer S T)
        ∧ (x ∈ (layers.foldl
            (fun (acc : List (QString × QgsMapLayer) × QSet QString) layerIt =>
              match layerIt.2.asVectorLayer with
              | none => (acc.1 ++ [layerIt], acc.2)
              | some vl =>
                let a := QgsMaskingWidget.applyVectorLayer mLayer S T layerIt.1 vl acc.2
                (acc.1 ++ [(layerIt.1, QgsMapLayer.vectorLayer a.1)], a.2)) acc).2
            ↔ x ∈ acc.2 ∨ ∃ e ∈ layers, ∃ vl, e.2.asVectorLayer = some vl ∧ ∃ s, s.layerId = x
                ∧ (selectsSymbolLayerOf S e.1 vl s ∨ selectsLabelProviderOf S e.1 vl s))
  | [], acc => by simp
  | e :: rest, acc => by
    rw [List.foldl_cons]
    cases hv : e.2.asVectorLayer with
    | none =>
      have ih := apply_loop mLayer S T x rest (acc.1 ++ [e], acc.2)
      obtain ⟨ih1, ih2⟩ := ih
      simp only [hv]
      refine ⟨?_, ?_⟩
      · rw [ih1]
        simp [QgsMaskingWidget.applied, hv]
      · rw [ih2]
        simp [hv]
    | some vl =>
      have ih := apply_loop mLayer S T x rest
        (acc.1 ++ [(e.1, QgsMapLayer.vectorLayer
            (QgsMaskingWidget.applyVectorLayer mLayer S T e.1 vl acc.2).1)],
          (QgsMaskingWidget.applyVectorLayer mLayer S T e.1 vl acc.2).2)
      obtain ⟨ih1, ih2⟩ := ih
      simp only [hv]
      refine ⟨?_, ?_⟩
      · rw [ih1]
        simp [QgsMaskingWidget.applied, hv, applyVectorLayer_fst mLayer S T e.1 vl acc.2 []]
      · rw [ih2]
        simp [hv, applyVectorLayer_snd, or_assoc]

theorem apply_layers (layers : List (QString × QgsMapLayer)) (mLayer : QgsVectorLayer)
    (S : List MaskSource) (T : QSet QgsSymbolLayerId) :
    (QgsMaskingWidget.apply layers mLayer S T).layers
      = layers.map (QgsMaskingWidget.applied mLayer S T) := by
  have h := (apply_loop mLayer S T "" layers ([], [])).1
  simpa [QgsMaskingWidget.apply] using h

theorem apply_layersToRefresh (layers : List (QString × QgsMapLayer))
    (mLayer : QgsVectorLayer) (S : List MaskSource) (T : QSet QgsSymbolLayerId)
    (x : QString) :
    x ∈ (QgsMaskingWidget.apply layers mLayer S T).layersToRefresh
      ↔ ∃ e ∈ layers, ∃ vl, e.2.asVectorLayer = some vl ∧ ∃ s, s.layerId = x
          ∧ (selectsSymbolLayerOf S e.1 vl s ∨ selectsLabelProviderOf S e.1 vl s) := by
  have h := (apply_loop mLayer S T x layers ([], [])).2
  simpa [QgsMaskingWidget.apply] using h

theorem asVectorLayer_eq (l : QgsMapLayer) (vl : QgsVectorLayer) :
    l.asVectorLayer = some vl ↔ l = QgsMapLayer.vectorLayer vl := by
  cases l <;> simp [QgsMapLayer.asVectorLayer]

theorem apply_getElem (layers : List (QString × QgsMapLayer)) (mLayer : QgsVectorLayer)
    (S : List MaskSource) (T : QSet QgsSymbolLayerId) (n : Nat) (key : QString)
    (vl : QgsVectorLayer)
    (h : layers[n]? = some (key, QgsMapLayer.vectorLayer vl)) :
    (QgsMaskingWidget.apply layers mLayer S T).layers[n]?
      = some (key, QgsMapLayer.vectorLayer
          (QgsMaskingWidget.applyVectorLayer mLayer S T key vl []).1) := by
  rw [apply_layers, List.getElem?_map, h]
  rfl

/-! ## Loops of `setLayer` -/

theorem foldl_selection {α : Type} (step : MaskSelection → α → MaskSelection)
    (src : α → List MaskSource) (dst : α → QgsSymbolLayerId → Prop)
    (h : ∀ acc x, (step acc x).maskSources = acc.maskSources ++ src x
      ∧ ∀ id, id ∈ (step acc x).maskedSymbolLayers ↔ id ∈ acc.maskedSymbolLayers ∨ dst x id) :
    ∀ (l : List α) (acc : MaskSelection),
      (l.foldl step acc).maskSources = acc.maskSources ++ l.flatMap src
        ∧ ∀ id, id ∈ (l.foldl step acc).maskedSymbolLayers
            ↔ id ∈ acc.maskedSymbolLayers ∨ ∃ x ∈ l, dst x id
  | [], acc => by simp
  | x :: rest, acc => by
    have ih := foldl_selection step src dst h rest (step acc x)
    rw [List.foldl_cons]
    refine ⟨?_, fun id => ?_⟩
    · rw [ih.1, (h acc x).1]
      simp
    · rw [ih.2 id, (h acc x).2 id]
      simp [or_assoc]

theorem mem_unite {α : Type} [DecidableEq α] (s t : QSet α) (x : α) :
    x ∈ s.unite t ↔ x ∈ s ∨ x ∈ t := by
  show x ∈ t ∪ s ↔ x ∈ s ∨ x ∈ t
  rw [List.mem_union_iff, or_comm]

theorem mem_insert {α : Type} [DecidableEq α] (s : QSet α) (y x : α) :
    x ∈ s.insert y ↔ x ∈ s ∨ x = y := by
  simp [QSet.insert, List.mem_insert_iff, or_comm]

theorem foldl_collector (l : List (QgsSymbolLayer × QgsSymbolLayerId))
    (acc : List (QgsSymbolLayerId × QgsSymbolLayerReferenceList)) :
    l.foldl (callStep symbolLayerMasks.collector) acc
      = acc ++ ((l.map callView).filter (fun e => decide (e.2.2 ≠ []))).map
          (fun e => (e.1, e.2.2)) := by
  induction l generalizing acc with
  | nil => simp
  | cons c rest ih =>
    rw [List.foldl_cons, ih]
    by_cases hc : c.1.masks = []
    · simp [callStep, symbolLayerMasks.collector, callView, hc]
    · simp [callStep, symbolLayerMasks.collector, callView, hc]

theorem symbolLayerMasks_eq (vl : QgsVectorLayer) :
    symbolLayerMasks vl
      = match vl.renderer with
        | none => []
        | some renderer =>
          (renderer.visited.filter (fun e => decide (e.2.2 ≠ []))).map (fun e => (e.1, e.2.2)) := by
  unfold symbolLayerMasks
  cases vl.renderer with
  | none => rfl
  | some renderer =>
    simp only [renderer_accept_captured, foldl_collector, visited_eq_calls, List.nil_append]

theorem flatMap_nonempty_masks {β : Type}
    (l : List (QgsSymbolLayerId × QString × QgsSymbolLayerReferenceList))
    (F : QgsSymbolLayerId → QgsSymbolLayerReferenceList → List β) (hF : ∀ id, F id [] = []) :
    ((l.filter (fun e => decide (e.2.2 ≠ []))).map (fun e => (e.1, e.2.2))).flatMap
        (fun p => F p.1 p.2)
      = l.flatMap (fun e => F e.1 e.2.2) := by
  induction l with
  | nil => simp
  | cons e rest ih =>
    by_cases he : e.2.2 = []
    · rw [List.filter_cons_of_neg (by simp [he])]
      simp only [List.flatMap_cons, ih, hF, he, List.nil_append]
    · rw [List.filter_cons_of_pos (by simp [he])]
      simp only [List.map_cons, List.flatMap_cons, ih]

theorem flatMap_if_singleton {α β : Type} (q : α → Prop) [DecidablePred q] (d : β)
    (l : List α) :
    l.flatMap (fun x => if q x then [d] else [])
      = (l.filter (fun x => decide (q x))).map (fun _ => d) := by
  induction l with
  | nil => simp
  | cons x rest ih =>
    by_cases hx : q x <;> simp [List.filter_cons, hx, ih]

theorem setLayer_symbology_loop (editedId layerId : QString)
    (slMasks : List (QgsSymbolLayerId × QgsSymbolLayerReferenceList)) (acc : MaskSelection) :
    (slMasks.foldl (fun (acc : MaskSelection) p =>
        p.2.foldl (fun (acc : MaskSelection) ref =>
          if ref.layerId = editedId then
            { maskedSymbolLayers := acc.maskedSymbolLayers.insert ref.symbolLayerId,
              maskSources := acc.maskSources ++
                [{ layerId := layerId, isLabeling := false, symbolLayerId := p.1 }] }
          else acc) acc) acc).maskSources
        = acc.maskSources ++ slMasks.flatMap (fun p =>
            (p.2.filter (fun ref => decide (ref.layerId = editedId))).map
              (fun _ => { layerId := layerId, isLabeling := false, symbolLayerId := p.1 }))
      ∧ ∀ id, id ∈ (slMasks.foldl (fun (acc : MaskSelection) p =>
        p.2.foldl (fun (acc : MaskSelection) ref =>
          if ref.layerId = editedId then
            { maskedSymbolLayers := acc.maskedSymbolLayers.insert ref.symbolLayerId,
              maskSources := acc.maskSources ++
                [{ layerId := layerId, isLabeling := false, symbolLayerId := p.1 }] }
          else acc) acc) acc).maskedSymbolLayers
        ↔ id ∈ acc.maskedSymbolLayers
          ∨ ∃ p ∈ slMasks, ∃ ref ∈ p.2, ref.layerId = editedId ∧ ref.symbolLayerId = id := by
  refine foldl_selection
    (fun (acc : MaskSelection) (p : QgsSymbolLayerId × QgsSymbolLayerReferenceList) =>
      p.2.foldl (fun (acc : MaskSelection) ref =>
        if ref.layerId = editedId then
          { maskedSymbolLayers := acc.maskedSymbolLayers.insert ref.symbolLayerId,
            maskSources := acc.maskSources ++
              [{ layerId := layerId, isLabeling := false, symbolLayerId := p.1 }] }
        else acc) acc)
    (fun p => (p.2.filter (fun ref => decide (ref.layerId = editedId))).map
      (fun _ => { layerId := layerId, isLabeling := false, symbolLayerId := p.1 }))
    (fun p id => ∃ ref ∈ p.2, ref.layerId = editedId ∧ ref.symbolLayerId = id) ?_ slMasks acc
  intro acc p
  have h := foldl_selection
    (fun (acc : MaskSelection) (ref : QgsSymbolLayerReference) =>
      if ref.layerId = editedId then
        { maskedSymbolLayers := acc.maskedSymbolLayers.insert ref.symbolLayerId,
          maskSources := acc.maskSources ++
            [{ layerId := layerId, isLabeling := false, symbolLayerId := p.1 }] }
      else acc)
    (fun ref => if ref.layerId = editedId then
      [{ layerId := layerId, isLabeling := false, symbolLayerId := p.1 }] else [])
    (fun ref id => ref.layerId = editedId ∧ ref.symbolLayerId = id)
    (by
      intro acc ref
      by_cases hr : ref.layerId = editedId
      · simp [hr, mem_insert, eq_comm]
      · simp [hr]) p.2 acc
  refine ⟨?_, fun id => ?_⟩
  · rw [h.1, flatMap_if_singleton]
  · rw [h.2 id]

theorem setLayer_labeling_loop (editedId layerId : QString) (masks : LabelMasks)
    (acc : MaskSelection) :
    (masks.foldl (fun (acc : MaskSelection) it =>
        it.2.foldl (fun (acc : MaskSelection) it2 =>
          if it2.1 = editedId then
            { maskedSymbolLayers := acc.maskedSymbolLayers.unite it2.2,
              maskSources := acc.maskSources ++
                [{ layerId := layerId, isLabeling := true, symbolLayerId := ⟨it.1, []⟩ }] }
          else acc) acc) acc).maskSources
        = acc.maskSources ++ masks.flatMap (fun it =>
            (it.2.filter (fun it2 => decide (it2.1 = editedId))).map
              (fun _ => { layerId := layerId, isLabeling := true, symbolLayerId := ⟨it.1, []⟩ }))
      ∧ ∀ id, id ∈ (masks.foldl (fun (acc : MaskSelection) it =>
        it.2.foldl (fun (acc : MaskSelection) it2 =>
          if it2.1 = editedId then
            { maskedSymbolLayers := acc.maskedSymbolLayers.unite it2.2,
              maskSources := acc.maskSources ++
                [{ layerId := layerId, isLabeling := true, symbolLayerId := ⟨it.1, []⟩ }] }
          else acc) acc) acc).maskedSymbolLayers
        ↔ id ∈ acc.maskedSymbolLayers
          ∨ ∃ it ∈ masks, ∃ it2 ∈ it.2, it2.1 = editedId ∧ id ∈ it2.2 := by
  refine foldl_selection
    (fun (acc : MaskSelection) (it : QString × QHash QString (QSet QgsSymbolLayerId)) =>
      it.2.foldl (fun (acc : MaskSelection) it2 =>
        if it2.1 = editedId then
          { maskedSymbolLayers := acc.maskedSymbolLayers.unite it2.2,
            maskSources := acc.maskSources ++
              [{ layerId := layerId, isLabeling := true, symbolLayerId := ⟨it.1, []⟩ }] }
        else acc) acc)
    (fun it => (it.2.filter (fun it2 => decide (it2.1 = editedId))).map
      (fun _ => { layerId := layerId, isLabeling := true, symbolLayerId := ⟨it.1, []⟩ }))
    (fun it id => ∃ it2 ∈ it.2, it2.1 = editedId ∧ id ∈ it2.2) ?_ masks acc
  intro acc it
  have h := foldl_selection
    (fun (acc : MaskSelection) (it2 : QString × QSet QgsSymbolLayerId) =>
      if it2.1 = editedId then
        { maskedSymbolLayers := acc.maskedSymbolLayers.unite it2.2,
          maskSources := acc.maskSources ++
            [{ layerId := layerId, isLabeling := true, symbolLayerId := ⟨it.1, []⟩ }] }
      else acc)
    (fun it2 => if it2.1 = editedId then
      [{ layerId := layerId, isLabeling := true, symbolLayerId := ⟨it.1, []⟩ }] else [])
    (fun it2 id => it2.1 = editedId ∧ id ∈ it2.2)
    (by
      intro acc it2
      by_cases hr : it2.1 = editedId
      · simp [hr, mem_unite]
      · simp [hr]) it.2 acc
  refine ⟨?_, fun id => ?_⟩
  · rw [h.1, flatMap_if_singleton]
  · rw [h.2 id]

theorem symbologySources_eq (editedId key : QString) (vl : QgsVectorLayer) :
    (symbolLayerMasks vl).flatMap (fun p =>
        (p.2.filter (fun ref => decide (ref.layerId = editedId))).map
          (fun _ => ({ layerId := key, isLabeling := false, symbolLayerId := p.1 } : MaskSource)))
      = symbologySources editedId key vl := by
  rw [symbolLayerMasks_eq]
  unfold symbologySources
  cases vl.renderer with
  | none => rfl
  | some renderer =>
    exact flatMap_nonempty_masks renderer.visited
      (fun id masks => (masks.filter (fun ref => decide (ref.layerId = editedId))).map
        (fun _ => ({ layerId := key, isLabeling := false, symbolLayerId := id } : MaskSource)))
      (by intro id; rfl)

theorem setLayer_loop (labelMasks : QgsVectorLayer → LabelMasks) (layer : QgsVectorLayer)
    (layers : List (QString × QgsMapLayer)) (acc : MaskSelection) :
    (layers.foldl (fun (acc : MaskSelection) layerIt =>
        let layerId := layerIt.1
        match layerIt.2.asVectorLayer with
        | none => acc
        | some vl =>
          let slMasks := symbolLayerMasks vl
          let acc1 := slMasks.foldl (fun (acc : MaskSelection) p =>
            p.2.foldl (fun (acc : MaskSelection) ref =>
              if ref.layerId = layer.id then
                { maskedSymbolLayers := acc.maskedSymbolLayers.insert ref.symbolLayerId,
                  maskSources := acc.maskSources ++
                    [{ layerId := layerId, isLabeling := false, symbolLayerId := p.1 }] }
              else acc) acc) acc
          (labelMasks vl).foldl (fun (acc : MaskSelection) it =>
            it.2.foldl (fun (acc : MaskSelection) it2 =>
              if it2.1 = layer.id then
                { maskedSymbolLayers := acc.maskedSymbolLayers.unite it2.2,
                  maskSources := acc.maskSources ++
                    [{ layerId := layerId, isLabeling := true, symbolLayerId := ⟨it.1, []⟩ }] }
              else acc) acc) acc1) acc).maskSources
        = acc.maskSources ++ layers.flatMap (collectedSourcesOf labelMasks layer.id)
      ∧ ∀ id, id ∈ (layers.foldl (fun (acc : MaskSelection) layerIt =>
        let layerId := layerIt.1
        match layerIt.2.asVectorLayer with
        | none => acc
        | some vl =>
          let slMasks := symbolLayerMasks vl
          let acc1 := slMasks.foldl (fun (acc : MaskSelection) p =>
            p.2.foldl (fun (acc : MaskSelection) ref =>
              if ref.layerId = layer.id then
                { maskedSymbolLayers := acc.maskedSymbolLayers.insert ref.symbolLayerId,
                  maskSources := acc.maskSources ++
                    [{ layerId := layerId, isLabeling := false, symbolLayerId := p.1 }] }
              else acc) acc) acc
          (labelMasks vl).foldl (fun (acc : MaskSelection) it =>
            it.2.foldl (fun (acc : MaskSelection) it2 =>
              if it2.1 = layer.id then
                { maskedSymbolLayers := acc.maskedSymbolLayers.unite it2.2,
                  maskSources := acc.maskSources ++
                    [{ layerId := layerId, isLabeling := true, symbolLayerId := ⟨it.1, []⟩ }] }
              else acc) acc) acc1) acc).maskedSymbolLayers
        ↔ id ∈ acc.maskedSymbolLayers
          ∨ ∃ e ∈ layers, ∃ vl, e.2.asVectorLayer = some vl
              ∧ (symbologyDestination layer.id vl id
                  ∨ labelingDestination labelMasks layer.id vl id) := by
  refine foldl_selection _ (collectedSourcesOf labelMasks layer.id)
    (fun e id => ∃ vl, e.2.asVectorLayer = some vl
      ∧ (symbologyDestination layer.id vl id ∨ labelingDestination labelMasks layer.id vl id))
    ?_ layers acc
  intro acc e
  cases hv : e.2.asVectorLayer with
  | none => simp [collectedSourcesOf, hv]
  | some vl =>
    have h1 := setLayer_symbology_loop layer.id e.1 (symbolLayerMasks vl) acc
    have h2 := setLayer_labeling_loop layer.id e.1 (labelMasks vl)
      ((symbolLayerMasks vl).foldl (fun (acc : MaskSelection) p =>
        p.2.foldl (fun (acc : MaskSelection) ref =>
          if ref.layerId = layer.id then
            { maskedSymbolLayers := acc.maskedSymbolLayers.insert ref.symbolLayerId,
              maskSources := acc.maskSources ++
                [{ layerId := e.1, isLabeling := false, symbolLayerId := p.1 }] }
          else acc) acc) acc)
    refine ⟨?_, fun id => ?_⟩
    · simp only [hv]
      rw [h2.1, h1.1, symbologySources_eq]
      simp [collectedSourcesOf, hv, labelingSources]
    · simp only [hv]
      rw [h2.2 id, h1.2 id]
      simp [symbologyDestination, labelingDestination, or_assoc]

theorem setLayer_maskSources_eq (labelMasks : QgsVectorLayer → LabelMasks)
    (layers : List (QString × QgsMapLayer)) (layer : QgsVectorLayer) :
    (QgsMaskingWidget.setLayer labelMasks layers layer).maskSources
      = layers.flatMap (collectedSourcesOf labelMasks layer.id) := by
  have h := (setLayer_loop labelMasks layer layers { maskSources := [], maskedSymbolLayers := [] }).1
  simpa [QgsMaskingWidget.setLayer] using h

theorem setLayer_masked_iff (labelMasks : QgsVectorLayer → LabelMasks)
    (layers : List (QString × QgsMapLayer)) (layer : QgsVectorLayer) (id : QgsSymbolLayerId) :
    id ∈ (QgsMaskingWidget.setLayer labelMasks layers layer).maskedSymbolLayers
      ↔ ∃ e ∈ layers, ∃ vl, e.2.asVectorLayer = some vl
          ∧ (symbologyDestination layer.id vl id
              ∨ labelingDestination labelMasks layer.id vl id) := by
  have h := (setLayer_loop labelMasks layer layers
    { maskSources := [], maskedSymbolLayers := [] }).2 id
  simpa [QgsMaskingWidget.setLayer] using h

/-! ## Index paths of a pre-order -/

theorem preorderFrom_head :
    ∀ (layers : List QgsSymbolLayer) (idx : Int),
      ∀ q ∈ QgsSymbol.preorderFrom layers idx, ∃ i rest, q.1 = i :: rest ∧ idx ≤ i
  | [], idx => by simp [QgsSymbol.preorderFrom]
  | sl :: more, idx => by
    intro q hq
    simp only [QgsSymbol.preorderFrom, List.cons_append, List.mem_cons, List.mem_append,
      List.mem_map] at hq
    rcases hq with rfl | ⟨d, _, rfl⟩ | hq
    · exact ⟨idx, [], rfl, le_refl _⟩
    · exact ⟨idx, d.1, rfl, le_refl _⟩
    · obtain ⟨i, rest, h1, h2⟩ := preorderFrom_head more (idx + 1) q hq
      exact ⟨i, rest, h1, by omega⟩

theorem preorder_path_ne_nil (s : QgsSymbol) : ∀ q ∈ s.preorder, q.1 ≠ [] := by
  cases s with
  | mk layers =>
    intro q hq
    obtain ⟨i, rest, h, _⟩ := preorderFrom_head layers 0 q (by simpa [QgsSymbol.preorder] using hq)
    simp [h]

theorem descendants_path_ne_nil (sl : QgsSymbolLayer) : ∀ q ∈ sl.descendants, q.1 ≠ [] := by
  cases sl with
  | mk ty masks sub =>
    cases sub with
    | none => simp [QgsSymbolLayer.descendants]
    | some s => simpa [QgsSymbolLayer.descendants] using preorder_path_ne_nil s

theorem lt_cons_same (i : Int) (p q : List Int) (h : pathBefore p q) :
    pathBefore (i :: p) (i :: q) :=
  List.Lex.cons h

theorem lt_cons_head (i j : Int) (p q : List Int) (h : i < j) :
    pathBefore (i :: p) (j :: q) :=
  List.Lex.rel h

theorem singleton_lt_cons (i : Int) (p : List Int) (h : p ≠ []) : pathBefore [i] (i :: p) := by
  cases p with
  | nil => exact absurd rfl h
  | cons j r => exact lt_cons_same i [] (j :: r) List.Lex.nil

mutual
theorem preorder_sorted :
    ∀ (s : QgsSymbol), (s.preorder.map Prod.fst).Pairwise pathBefore
  | .mk layers => by
    simpa [QgsSymbol.preorder] using preorderFrom_sorted layers 0
theorem preorderFrom_sorted :
    ∀ (layers : List QgsSymbolLayer) (idx : Int),
      ((QgsSymbol.preorderFrom layers idx).map Prod.fst).Pairwise pathBefore
  | [], idx => by simp [QgsSymbol.preorderFrom]
  | sl :: more, idx => by
    have h1 := descendants_sorted sl
    have h2 := preorderFrom_sorted more (idx + 1)
    have hne := descendants_path_ne_nil sl
    have hhead := preorderFrom_head more (idx + 1)
    simp only [QgsSymbol.preorderFrom, List.cons_append, List.map_cons, List.map_append,
      List.map_map, List.pairwise_cons, List.pairwise_append, List.mem_append, List.mem_map,
      Function.comp_def]
    refine ⟨?_, ?_, h2, ?_⟩
    · rintro p (⟨d, hd, rfl⟩ | ⟨q, hq, rfl⟩)
      · exact singleton_lt_cons idx d.1 (hne d hd)
      · obtain ⟨i, rest, hi, hle⟩ := hhead q hq
        rw [hi]
        exact lt_cons_head idx i [] rest (by omega)
    · rw [List.pairwise_map] at h1 ⊢
      exact h1.imp (fun h => lt_cons_same idx _ _ h)
    · rintro p ⟨d, hd, rfl⟩ p2 ⟨q, hq, rfl⟩
      obtain ⟨i, rest, hi, hle⟩ := hhead q hq
      rw [hi]
      exact lt_cons_head idx i d.1 rest (by omega)
theorem descendants_sorted :
    ∀ (sl : QgsSymbolLayer), (sl.descendants.map Prod.fst).Pairwise pathBefore
  | .mk ty masks none => by simp [QgsSymbolLayer.descendants]
  | .mk ty masks (some sub) => by
    simpa [QgsSymbolLayer.descendants] using preorder_sorted sub
end

theorem layerAt_nil (s : QgsSymbol) : QgsSymbol.layerAt [] s = none := by
  cases s
  rfl

mutual
theorem preorderFrom_layerAt :
    ∀ (layers : List QgsSymbolLayer) (idx : Int) (p : List Int) (x : QgsSymbolLayer),
      (p, x) ∈ QgsSymbol.preorderFrom layers idx
        ↔ ∃ i rest, p = i :: rest ∧ idx ≤ i ∧ ∃ sl, layers[(i - idx).toNat]? = some sl
            ∧ ((rest = [] ∧ x = sl)
              ∨ (rest ≠ [] ∧ ∃ sub, sl.subSymbol = some sub
                  ∧ QgsSymbol.layerAt rest sub = some x))
  | [], idx, p, x => by simp [QgsSymbol.preorderFrom]
  | sl :: more, idx, p, x => by
    have ihd := descendants_layerAt sl
    have ihm := preorderFrom_layerAt more (idx + 1) p x
    have hne := descendants_path_ne_nil sl
    simp only [QgsSymbol.preorderFrom, List.cons_append, List.mem_cons, List.mem_append,
      List.mem_map, Prod.mk.injEq]
    constructor
    · rintro (⟨rfl, rfl⟩ | ⟨d, hd, rfl, rfl⟩ | hm)
      · exact ⟨idx, [], rfl, le_refl _, x, by simp, Or.inl ⟨rfl, rfl⟩⟩
      · exact ⟨idx, d.1, rfl, le_refl _, sl, by simp,
          Or.inr ⟨hne d hd, (ihd d.1 d.2).mp hd⟩⟩
      · obtain ⟨i, rest, hp, hle, sl2, hsl, hcase⟩ := ihm.mp hm
        refine ⟨i, rest, hp, by omega, sl2, ?_, hcase⟩
        have : (i - idx).toNat = (i - (idx + 1)).toNat + 1 := by omega
        rw [this, List.getElem?_cons_succ]
        exact hsl
    · rintro ⟨i, rest, hp, hle, sl2, hsl, hcase⟩
      by_cases hi : i = idx
      · subst hi
        have h0 : (i - i).toNat = 0 := by omega
        rw [h0] at hsl
        simp only [List.getElem?_cons_zero, Option.some.injEq] at hsl
        subst hsl
        rcases hcase with ⟨hr, hx⟩ | ⟨hr, hsub⟩
        · left
          exact ⟨by rw [hp, hr], hx⟩
        · right
          left
          exact ⟨(rest, x), (ihd rest x).mpr hsub, hp.symm, rfl⟩
      · right
        right
        refine ihm.mpr ⟨i, rest, hp, by omega, sl2, ?_, hcase⟩
        have : (i - idx).toNat = (i - (idx + 1)).toNat + 1 := by omega
        rw [this, List.getElem?_cons_succ] at hsl
        exact hsl
theorem descendants_layerAt :
    ∀ (sl : QgsSymbolLayer) (p : List Int) (x : QgsSymbolLayer),
      (p, x) ∈ sl.descendants
        ↔ ∃ sub, sl.subSymbol = some sub ∧ QgsSymbol.layerAt p sub = some x
  | .mk ty masks none, p, x => by
    simp [QgsSymbolLayer.descendants, QgsSymbolLayer.subSymbol]
  | .mk ty masks (some sub), p, x => by
    simp only [QgsSymbolLayer.descendants, QgsSymbolLayer.subSymbol, Option.some.injEq,
      exists_eq_left']
    exact preorder_layerAt sub p x
theorem preorder_layerAt :
    ∀ (s : QgsSymbol) (p : List Int) (x : QgsSymbolLayer),
      (p, x) ∈ s.preorder ↔ QgsSymbol.layerAt p s = some x
  | .mk layers, p, x => by
    have h := preorderFrom_layerAt layers 0 p x
    simp only [QgsSymbol.preorder]
    rw [h]
    match p with
    | [] => simp [QgsSymbol.layerAt]
    | [i] =>
      simp only [QgsSymbol.layerAt, QgsSymbol.symbolLayers, List.cons.injEq, sub_zero]
      constructor
      · rintro ⟨i2, rest, ⟨rfl, rfl⟩, hle, sl, hsl, hcase⟩
        rcases hcase with ⟨_, hx⟩ | ⟨hr, _⟩
        · rw [if_pos hle, hsl, hx]
        · exact absurd rfl hr
      · intro h2
        by_cases hle : 0 ≤ i
        · rw [if_pos hle] at h2
          exact ⟨i, [], ⟨rfl, rfl⟩, hle, x, h2, Or.inl ⟨rfl, rfl⟩⟩
        · rw [if_neg hle] at h2
          exact absurd h2 (by simp)
    | i :: j :: rest =>
      simp only [QgsSymbol.layerAt, QgsSymbol.symbolLayers, List.cons.injEq, sub_zero]
      constructor
      · rintro ⟨i2, rest2, ⟨rfl, rfl⟩, hle, sl, hsl, hcase⟩
        rcases hcase with ⟨hr, _⟩ | ⟨_, sub, hsub, hat⟩
        · exact absurd hr (by simp)
        · rw [if_pos hle, hsl]
          simp only [hsub]
          exact hat
      · intro h2
        by_cases hle : 0 ≤ i
        · rw [if_pos hle] at h2
          cases hsl : layers[i.toNat]? with
          | none => simp [hsl] at h2
          | some sl =>
            simp only [hsl] at h2
            cases hsub : sl.subSymbol with
            | none => simp [hsub] at h2
            | some sub =>
              simp only [hsub] at h2
              exact ⟨i, j :: rest, ⟨rfl, rfl⟩, hle, sl, hsl,
                Or.inr ⟨by simp, sub, hsub, h2⟩⟩
        · rw [if_neg hle] at h2
          exact absurd h2 (by simp)
end

theorem leaf_calls_path (key : QString) (leaf : StyleLeaf) :
    ∀ c ∈ leaf.calls key, c.2.symbolLayerIndexPath ≠ [] := by
  unfold StyleLeaf.calls
  split
  · rename_i symbol _
    intro c hc
    obtain ⟨q, hq, rfl⟩ := List.mem_map.mp hc
    simpa [callOf] using preorder_path_ne_nil symbol q hq
  · simp

mutual
theorem item_calls_path :
    ∀ (item : StyleItem) (key : QString),
      ∀ c ∈ (item.calls key).1, c.2.symbolLayerIndexPath ≠ []
  | .leaf styleLeaf, key => by
    simpa [StyleItem.calls] using leaf_calls_path key styleLeaf
  | .node type identifier children, key => by
    by_cases h : type = NodeType.SymbolRule
    · simpa [StyleItem.calls, h] using items_calls_path children identifier
    · simp [StyleItem.calls, h]
theorem items_calls_path :
    ∀ (items : List StyleItem) (key : QString),
      ∀ c ∈ (StyleItem.callsAll items key).1, c.2.symbolLayerIndexPath ≠ []
  | [], key => by simp [StyleItem.callsAll]
  | item :: rest, key => by
    intro c hc
    simp only [StyleItem.callsAll, List.mem_append] at hc
    rcases hc with hc | hc
    · exact item_calls_path item key c hc
    · exact items_calls_path rest _ c hc
end

theorem visited_path_ne_nil (renderer : QgsFeatureRenderer) :
    ∀ e ∈ renderer.visited, e.1.symbolLayerIndexPath ≠ [] := by
  intro e he
  rw [visited_eq_calls] at he
  obtain ⟨c, hc, rfl⟩ := List.mem_map.mp he
  exact items_calls_path renderer.items "" c hc

theorem visitSymbol_recorder (key leaf : QString) (s : QgsSymbol) (rootPath : List Int) :
    (SymbolLayerVisitor.visitSymbol recorder key leaf s rootPath []).2
      = s.preorder.map (fun q =>
          ((⟨key ++ leaf, rootPath ++ q.1⟩ : QgsSymbolLayerId), q.2.layerType, q.2.masks)) := by
  rw [visitSymbol_captured, foldl_recorder]
  simp [List.map_map, Function.comp_def, callView, callOf]

/-! ## Properties of `apply`: rebuilt mask lists -/

/-- C1: after `apply`, the visitor reaches in the renderer of every vector layer
of the project the same symbol layers as before, and every symbol layer of type
"MaskMarker" it reaches with id `slId` holds the old references whose layer id
differs from the edited layer's id, in their order, followed, for each selected
source in selection order that is not a labeling source and names the layer's
key and `slId`, by one reference to each selected destination. -/
theorem apply_rebuilds_symbol_layer_masks (layers : List (QString × QgsMapLayer))
    (mLayer : QgsVectorLayer) (maskSources : List MaskSource)
    (maskedSymbolLayers : QSet QgsSymbolLayerId) (n : Nat) (key : QString)
    (vl : QgsVectorLayer) (renderer : QgsFeatureRenderer)
    (hlayer : layers[n]? = some (key, QgsMapLayer.vectorLayer vl))
    (hrenderer : vl.renderer = some renderer) :
    ∃ vl2 renderer2,
      (QgsMaskingWidget.apply layers mLayer maskSources maskedSymbolLayers).layers[n]?
          = some (key, QgsMapLayer.vectorLayer vl2)
        ∧ vl2.renderer = some renderer2
        ∧ renderer2.visited.length = renderer.visited.length
        ∧ ∀ (i : Nat) (slId : QgsSymbolLayerId) (masks : QgsSymbolLayerReferenceList),
            renderer.visited[i]? = some (slId, "MaskMarker", masks) →
            renderer2.visited[i]? = some (slId, "MaskMarker",
              masks.filter (fun ref => decide (ref.layerId ≠ mLayer.id))
                ++ (maskSources.filter (fun source =>
                      decide (source.isLabeling = false ∧ source.layerId = key
                        ∧ source.symbolLayerId = slId))).flatMap
                    (fun _ => maskedSymbolLayers.map
                      (fun maskedId => { layerId := mLayer.id, symbolLayerId := maskedId }))) := by
  refine ⟨(QgsMaskingWidget.applyVectorLayer mLayer maskSources maskedSymbolLayers key vl []).1,
    (renderer.accept
      (QgsMaskingWidget.maskSetter mLayer maskSources maskedSymbolLayers key) []).1,
    apply_getElem layers mLayer maskSources maskedSymbolLayers n key vl hlayer, ?_, ?_, ?_⟩
  · rw [applyVectorLayer_renderer, hrenderer]
    rfl
  · rw [visited_accept _ (rewrittenMasks mLayer.id maskSources maskedSymbolLayers key)
      (fun sl id st => maskSetter_fst mLayer maskSources maskedSymbolLayers key sl id st)]
    simp
  · intro i slId masks hi
    rw [visited_accept _ (rewrittenMasks mLayer.id maskSources maskedSymbolLayers key)
      (fun sl id st => maskSetter_fst mLayer maskSources maskedSymbolLayers key sl id st),
      List.getElem?_map, hi]
    rfl

/-- C1, at the example project: the mask marker of "points" keeps its reference
to "rivers" and receives one reference to each of the two selected symbol
layers of "roads". -/
theorem apply_rebuilds_symbol_layer_masks_witness :
    (exProject[1]? = some ("points", QgsMapLayer.vectorLayer exPoints)
      ∧ exPoints.renderer = some exPointsRenderer)
    ∧ (∃ vl2 renderer2,
      (QgsMaskingWidget.apply exProject exRoads exSources exTargets).layers[1]?
          = some ("points", QgsMapLayer.vectorLayer vl2)
        ∧ vl2.renderer = some renderer2
        ∧ renderer2.visited.length = exPointsRenderer.visited.length
        ∧ ∀ (i : Nat) (slId : QgsSymbolLayerId) (masks : QgsSymbolLayerReferenceList),
            exPointsRenderer.visited[i]? = some (slId, "MaskMarker", masks) →
            renderer2.visited[i]? = some (slId, "MaskMarker",
              masks.filter (fun ref => decide (ref.layerId ≠ exRoads.id))
                ++ (exSources.filter (fun source =>
                      decide (source.isLabeling = false ∧ source.layerId = "points"
                        ∧ source.symbolLayerId = slId))).flatMap
                    (fun _ => exTargets.map
                      (fun maskedId => { layerId := exRoads.id, symbolLayerId := maskedId })))) :=
  ⟨⟨rfl, rfl⟩,
   apply_rebuilds_symbol_layer_masks exProject exRoads exSources exTargets 1 "points" exPoints
     exPointsRenderer rfl rfl⟩

/-- Concrete outcome of `apply` on the example project: what the visitor reaches
in "points" afterwards, the mask lists of its two label providers, and the
layers repainted. -/
theorem apply_example_outcome :
    visitedAt (QgsMaskingWidget.apply exProject exRoads exSources exTargets).layers 1
        = some [(⟨"rule1", [0]⟩, "SimpleMarker", []),
                (⟨"rule1", [1]⟩, "MaskMarker",
                  [⟨"rivers", ⟨"", [0]⟩⟩, ⟨"roads", ⟨"", [0]⟩⟩, ⟨"roads", ⟨"", [1]⟩⟩]),
                (⟨"rule1", [1, 0]⟩, "SimpleMarker", [])]
      ∧ providerMasksAt (QgsMaskingWidget.apply exProject exRoads exSources exTargets).layers
          1 "lab1" = some [⟨"roads", ⟨"", [0]⟩⟩, ⟨"roads", ⟨"", [1]⟩⟩]
      ∧ providerMasksAt (QgsMaskingWidget.apply exProject exRoads exSources exTargets).layers
          1 "lab2" = some [⟨"roads", ⟨"", [1]⟩⟩]
      ∧ (QgsMaskingWidget.apply exProject exRoads exSources exTargets).repainted
          = ["roads", "points"] := by
  decide

/-- C2 as stated fails: provider "lab2" of "points" has a disabled text mask and
holds a reference to the edited layer "roads". After `apply` it still holds
that reference, while the list the claim describes for it is empty. -/
theorem apply_label_masks_disabled_counterexample :
    (exProject[1]? = some ("points", QgsMapLayer.vectorLayer exPoints)
      ∧ exPoints.labeling = some exLabeling ∧ "lab2" ∈ exLabeling.subProviders)
    ∧ providerMasksAt (QgsMaskingWidget.apply exProject exRoads exSources exTargets).layers
        1 "lab2" = some [⟨"roads", ⟨"", [1]⟩⟩]
    ∧ (exLabeling.masks "lab2").filter (fun ref => decide (ref.layerId ≠ exRoads.id))
        ++ (exSources.filter (fun source =>
              decide (source.isLabeling = true ∧ source.layerId = "points"
                ∧ source.symbolLayerId.symbolKey = "lab2"))).flatMap
            (fun _ => exTargets.map
              (fun maskedId => { layerId := exRoads.id, symbolLayerId := maskedId }))
        = []
    ∧ providerMasksAt (QgsMaskingWidget.apply exProject exRoads exSources exTargets).layers
        1 "lab2"
        ≠ some ((exLabeling.masks "lab2").filter (fun ref => decide (ref.layerId ≠ exRoads.id))
            ++ (exSources.filter (fun source =>
                  decide (source.isLabeling = true ∧ source.layerId = "points"
                    ∧ source.symbolLayerId.symbolKey = "lab2"))).flatMap
                (fun _ => exTargets.map
                  (fun maskedId => { layerId := exRoads.id, symbolLayerId := maskedId }))) :=
  ⟨⟨rfl, rfl, by decide⟩, by decide, by decide, by decide⟩

/-- C2, amended: after `apply`, every label provider of a vector layer whose text
mask is enabled holds the old references whose layer id differs from the
edited layer's id, in their order, followed, for each selected labeling source
in selection order that names the layer's key and the provider key, by one
reference to each selected destination; a provider whose text mask is
disabled keeps its list, and no provider is added, removed, enabled or
disabled. -/
theorem apply_rebuilds_enabled_label_masks (layers : List (QString × QgsMapLayer))
    (mLayer : QgsVectorLayer) (maskSources : List MaskSource)
    (maskedSymbolLayers : QSet QgsSymbolLayerId) (n : Nat) (key : QString)
    (vl : QgsVectorLayer) (labeling : QgsAbstractVectorLayerLabeling) (p : QString)
    (hlayer : layers[n]? = some (key, QgsMapLayer.vectorLayer vl))
    (hlabeling : vl.labeling = some labeling) (hp : p ∈ labeling.subProviders) :
    ∃ vl2 labeling2,
      (QgsMaskingWidget.apply layers mLayer maskSources maskedSymbolLayers).layers[n]?
          = some (key, QgsMapLayer.vectorLayer vl2)
        ∧ vl2.labeling = some labeling2
        ∧ labeling2.subProviders = labeling.subProviders
        ∧ labeling2.maskEnabled p = labeling.maskEnabled p
        ∧ (labeling.maskEnabled p = true →
            labeling2.masks p
              = (labeling.masks p).filter (fun ref => decide (ref.layerId ≠ mLayer.id))
                ++ (maskSources.filter (fun source =>
                      decide (source.isLabeling = true ∧ source.layerId = key
                        ∧ source.symbolLayerId.symbolKey = p))).flatMap
                    (fun _ => maskedSymbolLayers.map
                      (fun maskedId => { layerId := mLayer.id, symbolLayerId := maskedId })))
        ∧ (labeling.maskEnabled p = false → labeling2.masks p = labeling.masks p) := by
  have hfold := resetLabelMasks_fold mLayer maskSources maskedSymbolLayers key
    labeling.subProviders labeling []
  refine ⟨(QgsMaskingWidget.applyVectorLayer mLayer maskSources maskedSymbolLayers key vl []).1,
    (labeling.subProviders.foldl
      (QgsMaskingWidget.resetLabelMasks mLayer maskSources maskedSymbolLayers key)
      (labeling, [])).1,
    apply_getElem layers mLayer maskSources maskedSymbolLayers n key vl hlayer, ?_,
    hfold.1, (hfold.2 p).1, ?_, ?_⟩
  · rw [applyVectorLayer_labeling, hlabeling]
    rfl
  · intro he
    rw [(hfold.2 p).2, if_pos ⟨hp, he⟩]
    rfl
  · intro he
    rw [(hfold.2 p).2, if_neg (by simp [he])]

/-- C2 amended, at the example project: provider "lab1" of "points", whose text
mask is enabled. -/
theorem apply_rebuilds_enabled_label_masks_witness :
    (exProject[1]? = some ("points", QgsMapLayer.vectorLayer exPoints)
      ∧ exPoints.labeling = some exLabeling ∧ "lab1" ∈ exLabeling.subProviders)
    ∧ (∃ vl2 labeling2,
      (QgsMaskingWidget.apply exProject exRoads exSources exTargets).layers[1]?
          = some ("points", QgsMapLayer.vectorLayer vl2)
        ∧ vl2.labeling = some labeling2
        ∧ labeling2.subProviders = exLabeling.subProviders
        ∧ labeling2.maskEnabled "lab1" = exLabeling.maskEnabled "lab1"
        ∧ (exLabeling.maskEnabled "lab1" = true →
            labeling2.masks "lab1"
              = (exLabeling.masks "lab1").filter (fun ref => decide (ref.layerId ≠ exRoads.id))
                ++ (exSources.filter (fun source =>
                      decide (source.isLabeling = true ∧ source.layerId = "points"
                        ∧ source.symbolLayerId.symbolKey = "lab1"))).flatMap
                    (fun _ => exTargets.map
                      (fun maskedId => { layerId := exRoads.id, symbolLayerId := maskedId })))
        ∧ (exLabeling.maskEnabled "lab1" = false →
            labeling2.masks "lab1" = exLabeling.masks "lab1")) :=
  ⟨⟨rfl, rfl, by decide⟩,
   apply_rebuilds_enabled_label_masks exProject exRoads exSources exTargets 1 "points" exPoints
     exLabeling "lab1" rfl rfl (by decide)⟩

/-! ## Properties of `setLayer`: collected destinations and sources -/

/-- C3: the set of masked symbol layer ids that `setLayer` hands to the targets
widget holds exactly the `symbolLayerId` of every mask reference whose layer id
is the target layer's id, over every pair collected by `symbolLayerMasks` in
every vector layer of the project, and every id of every id set that
`labelMasks` reports under the target layer's id for a rule key of a vector
layer; every id in it comes from such a reference to the target layer. -/
theorem setLayer_masked_symbol_layers (labelMasks : QgsVectorLayer → LabelMasks)
    (layers : List (QString × QgsMapLayer)) (layer : QgsVectorLayer)
    (id : QgsSymbolLayerId) :
    id ∈ (QgsMaskingWidget.setLayer labelMasks layers layer).maskedSymbolLayers
      ↔ ∃ layerIt ∈ layers, ∃ vl, layerIt.2 = QgsMapLayer.vectorLayer vl
          ∧ ((∃ p ∈ symbolLayerMasks vl, ∃ ref ∈ p.2,
                ref.layerId = layer.id ∧ ref.symbolLayerId = id)
              ∨ (∃ it ∈ labelMasks vl, ∃ it2 ∈ it.2, it2.1 = layer.id ∧ id ∈ it2.2)) := by
  rw [setLayer_masked_iff]
  simp only [asVectorLayer_eq, symbologyDestination, labelingDestination]

/-- C3, at the example project: both symbol layers of "roads" are masked, the
first by the mask marker of "points" and by its label provider, the second by
the label provider only; the symbol layer of "rivers" is not in the set. -/
theorem example_masked_symbol_layers :
    (QgsMaskingWidget.setLayer exLabelMasks exProject exRoads).maskedSymbolLayers
      = [⟨"", [1]⟩, ⟨"", [0]⟩] := by
  decide

/-- C4 as stated fails for labeling: provider "lab1" of "points" masks two symbol
layers of "roads", so two label mask references target "roads", yet `setLayer`
records a single labeling descriptor for it. -/
theorem setLayer_label_sources_counterexample :
    exLabelMasks exPoints = [("lab1", [("roads", [⟨"", [0]⟩, ⟨"", [1]⟩])])]
    ∧ (QgsMaskingWidget.setLayer exLabelMasks exProject exRoads).maskSources
        = [{ layerId := "points", isLabeling := false, symbolLayerId := ⟨"rule1", [1]⟩ },
           { layerId := "points", isLabeling := true, symbolLayerId := ⟨"lab1", []⟩ }]
    ∧ exProject.flatMap (collectedSourcesPerReferenceOf exLabelMasks exRoads.id)
        = [{ layerId := "points", isLabeling := false, symbolLayerId := ⟨"rule1", [1]⟩ },
           { layerId := "points", isLabeling := true, symbolLayerId := ⟨"lab1", []⟩ },
           { layerId := "points", isLabeling := true, symbolLayerId := ⟨"lab1", []⟩ }]
    ∧ (QgsMaskingWidget.setLayer exLabelMasks exProject exRoads).maskSources
        ≠ exProject.flatMap (collectedSourcesPerReferenceOf exLabelMasks exRoads.id) := by
  decide

/-- C4, amended: the list of mask sources that `setLayer` hands to the sources
widget is, layer after layer in project iteration order, the symbology
descriptors of the layer followed by its labeling descriptors. The symbology
descriptors are, in the order in which the visitor reaches the symbol layers,
one descriptor (layer key, not labeling, id of the symbol layer) for each
mask reference of the symbol layer to the edited layer; the labeling
descriptors are, in the order of `labelMasks`, one descriptor (layer key,
labeling, rule key with an empty index path) for each id set reported under
the edited layer's id, whatever the number of ids in the set. -/
theorem setLayer_mask_sources (labelMasks : QgsVectorLayer → LabelMasks)
    (layers : List (QString × QgsMapLayer)) (layer : QgsVectorLayer) :
    (QgsMaskingWidget.setLayer labelMasks layers layer).maskSources
      = layers.flatMap (fun layerIt =>
          match layerIt.2.asVectorLayer with
          | none => []
          | some vl =>
            symbologySources layer.id layerIt.1 vl
              ++ labelingSources labelMasks layer.id layerIt.1 vl) := by
  rw [setLayer_maskSources_eq]
  rfl

/-! ## Properties of `apply`: repaint and frame -/

/-- C5 as stated fails: with nothing selected, `apply` removes from the mask
marker of "points" its reference to the edited layer "roads", so the mask list
of "points" changes, but only "roads" is repainted. -/
theorem apply_repaint_counterexample :
    visitedAt exProject 1
        = some [(⟨"rule1", [0]⟩, "SimpleMarker", []),
                (⟨"rule1", [1]⟩, "MaskMarker",
                  [⟨"roads", ⟨"", [0]⟩⟩, ⟨"rivers", ⟨"", [0]⟩⟩]),
                (⟨"rule1", [1, 0]⟩, "SimpleMarker", [])]
    ∧ visitedAt (QgsMaskingWidget.apply exProject exRoads [] []).layers 1
        = some [(⟨"rule1", [0]⟩, "SimpleMarker", []),
                (⟨"rule1", [1]⟩, "MaskMarker", [⟨"rivers", ⟨"", [0]⟩⟩]),
                (⟨"rule1", [1, 0]⟩, "SimpleMarker", [])]
    ∧ (QgsMaskingWidget.apply exProject exRoads [] []).repainted = ["roads"]
    ∧ "points" ∉ (QgsMaskingWidget.apply exProject exRoads [] []).repainted := by
  decide

/-- C5, amended: `apply` repaints the edited layer, whatever the project and the
selections; and it repaints every vector layer in which the mask list of some
symbol layer or label provider differs after `apply` from the list before and
holds, after `apply`, a reference to the edited layer. -/
theorem apply_repaints_mask_sources (layers : List (QString × QgsMapLayer))
    (mLayer : QgsVectorLayer) (maskSources : List MaskSource)
    (maskedSymbolLayers : QSet QgsSymbolLayerId) :
    mLayer.id ∈ (QgsMaskingWidget.apply layers mLayer maskSources maskedSymbolLayers).repainted
    ∧ ∀ (n : Nat) (key : QString) (vl vl2 : QgsVectorLayer),
        layers[n]? = some (key, QgsMapLayer.vectorLayer vl) →
        (QgsMaskingWidget.apply layers mLayer maskSources maskedSymbolLayers).layers[n]?
          = some (key, QgsMapLayer.vectorLayer vl2) →
        ((∃ (renderer renderer2 : QgsFeatureRenderer) (i : Nat)
            (e e2 : QgsSymbolLayerId × QString × QgsSymbolLayerReferenceList),
            vl.renderer = some renderer
            ∧ vl2.renderer = some renderer2
            ∧ renderer.visited[i]? = some e ∧ renderer2.visited[i]? = some e2
            ∧ e2.2.2 ≠ e.2.2 ∧ ∃ ref ∈ e2.2.2, ref.layerId = mLayer.id)
          ∨ (∃ (labeling labeling2 : QgsAbstractVectorLayerLabeling) (p : QString),
            vl.labeling = some labeling
            ∧ vl2.labeling = some labeling2
            ∧ labeling2.masks p ≠ labeling.masks p
            ∧ ∃ ref ∈ labeling2.masks p, ref.layerId = mLayer.id)) →
        key ∈ (QgsMaskingWidget.apply layers mLayer maskSources maskedSymbolLayers).repainted := by
  refine ⟨List.mem_cons_self _ _, ?_⟩
  intro n key vl vl2 hlayer hafter hchanged
  have hrep : ∀ x,
      x ∈ (QgsMaskingWidget.apply layers mLayer maskSources maskedSymbolLayers).layersToRefresh →
      x ∈ (QgsMaskingWidget.apply layers mLayer maskSources maskedSymbolLayers).repainted := by
    intro x hx
    exact List.mem_cons_of_mem _ hx
  refine hrep key ?_
  rw [apply_getElem layers mLayer maskSources maskedSymbolLayers n key vl hlayer] at hafter
  simp only [Option.some.injEq, Prod.mk.injEq, QgsMapLayer.vectorLayer.injEq, true_and] at hafter
  rw [apply_layersToRefresh]
  have hmatch : ∀ (M : List MaskSource) (old : QgsSymbolLayerReferenceList),
      (∃ ref ∈ rebuiltMasks mLayer.id M maskedSymbolLayers old, ref.layerId = mLayer.id) →
      ∃ s, s ∈ M := by
    intro M old ⟨ref, href, hid⟩
    unfold rebuiltMasks at href
    rcases List.mem_append.mp href with h | h
    · simp [hid] at h
    · obtain ⟨s, hs, _⟩ := List.mem_flatMap.mp h
      exact ⟨s, hs⟩
  refine ⟨(key, QgsMapLayer.vectorLayer vl), List.getElem?_mem hlayer, vl, rfl, ?_⟩
  rcases hchanged with ⟨renderer, renderer2, i, e, e2, hr, hr2, he, he2, hne, href⟩
    | ⟨labeling, labeling2, p, hl, hl2, hne, href⟩
  · rw [← hafter, applyVectorLayer_renderer, hr] at hr2
    simp only [Option.map_some', Option.some.injEq] at hr2
    rw [← hr2, visited_accept _ (rewrittenMasks mLayer.id maskSources maskedSymbolLayers key)
      (fun sl id st => maskSetter_fst mLayer maskSources maskedSymbolLayers key sl id st),
      List.getElem?_map, he] at he2
    simp only [Option.map_some', Option.some.injEq] at he2
    subst he2
    simp only [rewrittenMasks] at hne href
    by_cases hty : e.2.1 = "MaskMarker"
    · rw [if_pos hty] at href
      obtain ⟨s, hs⟩ := hmatch _ _ href
      obtain ⟨hsS, hnames⟩ := List.mem_filter.mp hs
      have hkey : s.layerId = key := by
        simp only [MaskSource.namesSymbolLayer, decide_eq_true_eq] at hnames
        exact hnames.2.1
      exact ⟨s, hkey, Or.inl ⟨renderer, hr, e, List.getElem?_mem he, hty, hsS, hnames⟩⟩
    · rw [if_neg hty] at hne
      exact absurd rfl hne
  · rw [← hafter, applyVectorLayer_labeling, hl] at hl2
    simp only [Option.map_some', Option.some.injEq] at hl2
    have hfold := (resetLabelMasks_fold mLayer maskSources maskedSymbolLayers key
      labeling.subProviders labeling []).2 p
    rw [hl2] at hfold
    by_cases hc : p ∈ labeling.subProviders ∧ labeling.maskEnabled p = true
    · rw [hfold.2, if_pos hc] at href
      obtain ⟨s, hs⟩ := hmatch _ _ href
      obtain ⟨hsS, hnames⟩ := List.mem_filter.mp hs
      have hkey : s.layerId = key := by
        simp only [MaskSource.namesLabelProvider, decide_eq_true_eq] at hnames
        exact hnames.2.1
      exact ⟨s, hkey, Or.inr ⟨labeling, hl, p, hc.1, hc.2, hsS, hnames⟩⟩
    · rw [hfold.2, if_neg hc] at hne
      exact absurd rfl hne

/-- C5 amended, at the example project. With nothing selected, where no layer is
put in `layersToRefresh`, the edited layer "roads" is repainted all the same.
With the example selections, the mask marker of "points" changes and masks
"roads" after `apply`, and "points" is repainted. -/
theorem apply_repaints_mask_sources_witness :
    ((QgsMaskingWidget.apply exProject exRoads [] []).layersToRefresh = []
      ∧ exRoads.id ∈ (QgsMaskingWidget.apply exProject exRoads [] []).repainted)
    ∧ (exProject[1]? = some ("points", QgsMapLayer.vectorLayer exPoints)
      ∧ (QgsMaskingWidget.apply exProject exRoads exSources exTargets).layers[1]?
          = some ("points", QgsMapLayer.vectorLayer
              (QgsMaskingWidget.applyVectorLayer exRoads exSources exTargets "points"
                exPoints []).1))
    ∧ exRoads.id ∈ (QgsMaskingWidget.apply exProject exRoads exSources exTargets).repainted
    ∧ "points" ∈ (QgsMaskingWidget.apply exProject exRoads exSources exTargets).repainted :=
  ⟨⟨by decide, (apply_repaints_mask_sources exProject exRoads [] []).1⟩,
   ⟨rfl, rfl⟩,
   (apply_repaints_mask_sources exProject exRoads exSources exTargets).1,
   (apply_repaints_mask_sources exProject exRoads exSources exTargets).2 1 "points" exPoints
     (QgsMaskingWidget.applyVectorLayer exRoads exSources exTargets "points" exPoints []).1
     rfl rfl
     (Or.inl ⟨exPointsRenderer,
       (exPointsRenderer.accept
         (QgsMaskingWidget.maskSetter exRoads exSources exTargets "points") []).1,
       1,
       (⟨"rule1", [1]⟩, "MaskMarker", [⟨"roads", ⟨"", [0]⟩⟩, ⟨"rivers", ⟨"", [0]⟩⟩]),
       (⟨"rule1", [1]⟩, "MaskMarker",
         [⟨"rivers", ⟨"", [0]⟩⟩, ⟨"roads", ⟨"", [0]⟩⟩, ⟨"roads", ⟨"", [1]⟩⟩]),
       rfl, rfl, by decide, by decide, by decide, ⟨⟨"roads", ⟨"", [0]⟩⟩, by decide, rfl⟩⟩)⟩

theorem maskSetter_keep (mLayer : QgsVectorLayer) (S : List MaskSource)
    (T : QSet QgsSymbolLayerId) (key : QString) (sl : QgsSymbolLayer)
    (slId : QgsSymbolLayerId) (ltr : QSet QString) :
    (QgsMaskingWidget.maskSetter mLayer S T key sl slId ltr).1.filter
        (fun ref => decide (ref.layerId ≠ mLayer.id))
      = sl.masks.filter (fun ref => decide (ref.layerId ≠ mLayer.id)) := by
  rw [maskSetter_fst]
  unfold rewrittenMasks
  split
  · exact rebuiltMasks_keep _ _ _ _
  · rfl

/-- C6: `apply` touches only mask references to the edited layer. For every vector
layer of the project, the renderer after `apply` and the renderer before are
the same once every symbol layer's mask list is cut down to the references
whose layer id differs from the edited layer's id (same references, same
order, same multiplicity), whether the visitor reaches the symbol layer or
not; and every label provider has the same such sub-list before and after.
Presence of a renderer and of a labeling, the layer id and the provider keys
do not change. -/
theorem apply_keeps_other_destinations (layers : List (QString × QgsMapLayer))
    (mLayer : QgsVectorLayer) (maskSources : List MaskSource)
    (maskedSymbolLayers : QSet QgsSymbolLayerId) (n : Nat) (key : QString)
    (vl : QgsVectorLayer)
    (hlayer : layers[n]? = some (key, QgsMapLayer.vectorLayer vl)) :
    ∃ vl2,
      (QgsMaskingWidget.apply layers mLayer maskSources maskedSymbolLayers).layers[n]?
          = some (key, QgsMapLayer.vectorLayer vl2)
        ∧ vl2.id = vl.id
        ∧ vl2.renderer.map (QgsFeatureRenderer.mapMasks
              (List.filter (fun ref => decide (ref.layerId ≠ mLayer.id))))
            = vl.renderer.map (QgsFeatureRenderer.mapMasks
              (List.filter (fun ref => decide (ref.layerId ≠ mLayer.id))))
        ∧ (vl.labeling = none → vl2.labeling = none)
        ∧ ∀ labeling, vl.labeling = some labeling →
            ∃ labeling2, vl2.labeling = some labeling2
              ∧ labeling2.subProviders = labeling.subProviders
              ∧ ∀ p, (labeling2.masks p).filter (fun ref => decide (ref.layerId ≠ mLayer.id))
                  = (labeling.masks p).filter (fun ref => decide (ref.layerId ≠ mLayer.id)) := by
  refine ⟨(QgsMaskingWidget.applyVectorLayer mLayer maskSources maskedSymbolLayers key vl []).1,
    apply_getElem layers mLayer maskSources maskedSymbolLayers n key vl hlayer,
    applyVectorLayer_id mLayer maskSources maskedSymbolLayers key vl [], ?_, ?_, ?_⟩
  · rw [applyVectorLayer_renderer]
    cases vl.renderer with
    | none => rfl
    | some renderer =>
      simp only [Option.map_some', Option.some.injEq]
      exact renderer_accept_mapMasks _ _
        (fun sl id st => maskSetter_keep mLayer maskSources maskedSymbolLayers key sl id st)
        renderer []
  · intro h
    rw [applyVectorLayer_labeling, h]
    rfl
  · intro labeling h
    have hfold := resetLabelMasks_fold mLayer maskSources maskedSymbolLayers key
      labeling.subProviders labeling []
    refine ⟨_, by rw [applyVectorLayer_labeling, h]; rfl, hfold.1, fun p => ?_⟩
    rw [(hfold.2 p).2]
    split
    · exact rebuiltMasks_keep _ _ _ _
    · rfl

/-- C6, at the example project, for the layer "points". -/
theorem apply_keeps_other_destinations_witness :
    exProject[1]? = some ("points", QgsMapLayer.vectorLayer exPoints)
    ∧ (∃ vl2,
      (QgsMaskingWidget.apply exProject exRoads exSources exTargets).layers[1]?
          = some ("points", QgsMapLayer.vectorLayer vl2)
        ∧ vl2.id = exPoints.id
        ∧ vl2.renderer.map (QgsFeatureRenderer.mapMasks
              (List.filter (fun ref => decide (ref.layerId ≠ exRoads.id))))
            = exPoints.renderer.map (QgsFeatureRenderer.mapMasks
              (List.filter (fun ref => decide (ref.layerId ≠ exRoads.id))))
        ∧ (exPoints.labeling = none → vl2.labeling = none)
        ∧ ∀ labeling, exPoints.labeling = some labeling →
            ∃ labeling2, vl2.labeling = some labeling2
              ∧ labeling2.subProviders = labeling.subProviders
              ∧ ∀ p, (labeling2.masks p).filter (fun ref => decide (ref.layerId ≠ exRoads.id))
                  = (labeling.masks p).filter
                      (fun ref => decide (ref.layerId ≠ exRoads.id))) :=
  ⟨rfl, apply_keeps_other_destinations exProject exRoads exSources exTargets 1 "points"
    exPoints rfl⟩

/-! ## Index paths, absent renderer or labeling, pre-order -/

/-- C7: every mask source that `setLayer` produces with `isLabeling` true has an
empty index path and every one with `isLabeling` false has a non-empty index
path; every id under which the visitor reaches a symbol layer of a renderer,
and every id that `visitSymbol` passes to its callback from any root path, has
a non-empty index path. -/
theorem index_path_tells_labeling_from_symbology :
    (∀ (labelMasks : QgsVectorLayer → LabelMasks) (layers : List (QString × QgsMapLayer))
        (layer : QgsVectorLayer),
        ∀ source ∈ (QgsMaskingWidget.setLayer labelMasks layers layer).maskSources,
          (source.isLabeling = true → source.symbolLayerId.symbolLayerIndexPath = [])
            ∧ (source.isLabeling = false → source.symbolLayerId.symbolLayerIndexPath ≠ []))
    ∧ (∀ (renderer : QgsFeatureRenderer), ∀ e ∈ renderer.visited,
        e.1.symbolLayerIndexPath ≠ [])
    ∧ (∀ (mSymbolKey leafIdentifier : QString) (symbol : QgsSymbol) (rootPath : List Int),
        ∀ e ∈ (SymbolLayerVisitor.visitSymbol recorder mSymbolKey leafIdentifier symbol
            rootPath []).2,
          e.1.symbolLayerIndexPath ≠ []) := by
  refine ⟨?_, visited_path_ne_nil, ?_⟩
  · intro labelMasks layers layer source hs
    rw [setLayer_maskSources_eq] at hs
    obtain ⟨layerIt, _, hs⟩ := List.mem_flatMap.mp hs
    unfold collectedSourcesOf at hs
    cases hv : layerIt.2.asVectorLayer with
    | none => simp [hv] at hs
    | some vl =>
      simp only [hv, List.mem_append] at hs
      rcases hs with hs | hs
      · unfold symbologySources at hs
        cases hr : vl.renderer with
        | none => simp [hr] at hs
        | some renderer =>
          simp only [hr, List.mem_flatMap, List.mem_map] at hs
          obtain ⟨e, he, _, _, rfl⟩ := hs
          exact ⟨by simp, fun _ => visited_path_ne_nil renderer e he⟩
      · unfold labelingSources at hs
        simp only [List.mem_flatMap, List.mem_map] at hs
        obtain ⟨it, _, _, _, rfl⟩ := hs
        exact ⟨fun _ => rfl, by simp⟩
  · intro mSymbolKey leafIdentifier symbol rootPath e he
    rw [visitSymbol_recorder] at he
    obtain ⟨q, hq, rfl⟩ := List.mem_map.mp he
    have := preorder_path_ne_nil symbol q hq
    simp [this]

/-- C7, at the example project: the symbology source recorded for "roads" has the
index path `[1]`, the labeling source the empty path. -/
theorem example_index_paths :
    (QgsMaskingWidget.setLayer exLabelMasks exProject exRoads).maskSources
      = [{ layerId := "points", isLabeling := false, symbolLayerId := ⟨"rule1", [1]⟩ },
         { layerId := "points", isLabeling := true, symbolLayerId := ⟨"lab1", []⟩ }] := by
  decide

theorem symbolLayerMasks_no_renderer (vl : QgsVectorLayer) (h : vl.renderer = none) :
    symbolLayerMasks vl = [] := by
  unfold symbolLayerMasks
  rw [h]

/-- C8: a vector layer without a renderer or without labeling is skipped and the
walk goes on. (1) `symbolLayerMasks` returns the empty list for a layer
without a renderer. (2) In `setLayer`, such a layer standing anywhere in the
project contributes only its labeling descriptors and label-mask ids: the
sources are those of the layers before it, its labeling descriptors, then
those of the layers after it, and the masked ids are those of the layers
before it, its label-mask ids and those of the layers after it. (3) In
`apply`, the layers before and after any vector layer are rewritten as they
are without it, a layer without a renderer still has none afterwards, and a
layer without labeling still has none afterwards. All three functions are
total: they have no error result. -/
theorem absent_renderer_or_labeling_is_skipped :
    (∀ (vl : QgsVectorLayer), vl.renderer = none → symbolLayerMasks vl = [])
    ∧ (∀ (labelMasks : QgsVectorLayer → LabelMasks) (pre post : List (QString × QgsMapLayer))
        (key : QString) (vl layer : QgsVectorLayer), vl.renderer = none →
        (QgsMaskingWidget.setLayer labelMasks
            (pre ++ (key, QgsMapLayer.vectorLayer vl) :: post) layer).maskSources
          = (QgsMaskingWidget.setLayer labelMasks pre layer).maskSources
            ++ labelingSources labelMasks layer.id key vl
            ++ (QgsMaskingWidget.setLayer labelMasks post layer).maskSources
        ∧ ∀ id,
          id ∈ (QgsMaskingWidget.setLayer labelMasks
              (pre ++ (key, QgsMapLayer.vectorLayer vl) :: post) layer).maskedSymbolLayers
            ↔ id ∈ (QgsMaskingWidget.setLayer labelMasks pre layer).maskedSymbolLayers
              ∨ (∃ it ∈ labelMasks vl, ∃ it2 ∈ it.2, it2.1 = layer.id ∧ id ∈ it2.2)
              ∨ id ∈ (QgsMaskingWidget.setLayer labelMasks post layer).maskedSymbolLayers)
    ∧ (∀ (pre post : List (QString × QgsMapLayer)) (key : QString)
        (vl mLayer : QgsVectorLayer) (maskSources : List MaskSource)
        (maskedSymbolLayers : QSet QgsSymbolLayerId),
        ∃ vl2,
          (QgsMaskingWidget.apply (pre ++ (key, QgsMapLayer.vectorLayer vl) :: post)
              mLayer maskSources maskedSymbolLayers).layers
            = (QgsMaskingWidget.apply pre mLayer maskSources maskedSymbolLayers).layers
              ++ (key, QgsMapLayer.vectorLayer vl2)
                :: (QgsMaskingWidget.apply post mLayer maskSources maskedSymbolLayers).layers
          ∧ (vl.renderer = none → vl2.renderer = none)
          ∧ (vl.labeling = none → vl2.labeling = none)) := by
  refine ⟨symbolLayerMasks_no_renderer, ?_, ?_⟩
  · intro labelMasks pre post key vl layer hr
    refine ⟨?_, fun id => ?_⟩
    · simp only [setLayer_maskSources_eq, List.flatMap_append, List.flatMap_cons,
        List.append_assoc]
      congr 1
      simp [collectedSourcesOf, QgsMapLayer.asVectorLayer, symbologySources, hr]
    · simp only [setLayer_masked_iff, List.mem_append, List.mem_cons]
      constructor
      · rintro ⟨e, (he | rfl | he), vl2, hv, hd⟩
        · exact Or.inl ⟨e, he, vl2, hv, hd⟩
        · simp only [QgsMapLayer.asVectorLayer, Option.some.injEq] at hv
          subst hv
          rcases hd with hd | hd
          · simp [symbologyDestination, symbolLayerMasks_no_renderer _ hr] at hd
          · exact Or.inr (Or.inl hd)
        · exact Or.inr (Or.inr ⟨e, he, vl2, hv, hd⟩)
      · rintro (⟨e, he, vl2, hv, hd⟩ | hd | ⟨e, he, vl2, hv, hd⟩)
        · exact ⟨e, Or.inl he, vl2, hv, hd⟩
        · exact ⟨(key, QgsMapLayer.vectorLayer vl), Or.inr (Or.inl rfl), vl, rfl, Or.inr hd⟩
        · exact ⟨e, Or.inr (Or.inr he), vl2, hv, hd⟩
  · intro pre post key vl mLayer maskSources maskedSymbolLayers
    refine ⟨(QgsMaskingWidget.applyVectorLayer mLayer maskSources maskedSymbolLayers
      key vl []).1, ?_, ?_, ?_⟩
    · simp only [apply_layers, List.map_append, List.map_cons]
      rfl
    · intro h
      rw [applyVectorLayer_renderer, h]
      rfl
    · intro h
      rw [applyVectorLayer_labeling, h]
      rfl

/-- C8, at the example project, whose first layer "bare" has neither renderer nor
labeling: `setLayer` and `apply` give for the other layers what they give for
the project without it. -/
theorem absent_renderer_or_labeling_is_skipped_witness :
    (exBare.renderer = none ∧ exBare.labeling = none)
    ∧ symbolLayerMasks exBare = []
    ∧ (QgsMaskingWidget.setLayer exLabelMasks
          ([] ++ ("bare", QgsMapLayer.vectorLayer exBare) :: exProject.tail) exRoads).maskSources
        = (QgsMaskingWidget.setLayer exLabelMasks [] exRoads).maskSources
          ++ labelingSources exLabelMasks exRoads.id "bare" exBare
          ++ (QgsMaskingWidget.setLayer exLabelMasks exProject.tail exRoads).maskSources
    ∧ (∃ vl2,
        (QgsMaskingWidget.apply ([] ++ ("bare", QgsMapLayer.vectorLayer exBare) :: exProject.tail)
            exRoads exSources exTargets).layers
          = (QgsMaskingWidget.apply [] exRoads exSources exTargets).layers
            ++ ("bare", QgsMapLayer.vectorLayer vl2)
              :: (QgsMaskingWidget.apply exProject.tail exRoads exSources exTargets).layers
        ∧ (exBare.renderer = none → vl2.renderer = none)
        ∧ (exBare.labeling = none → vl2.labeling = none)) :=
  ⟨⟨rfl, rfl⟩,
   absent_renderer_or_labeling_is_skipped.1 exBare rfl,
   (absent_renderer_or_labeling_is_skipped.2.1 exLabelMasks [] exProject.tail "bare" exBare
     exRoads rfl).1,
   absent_renderer_or_labeling_is_skipped.2.2 [] exProject.tail "bare" exBare exRoads
     exSources exTargets⟩

theorem pathBefore_irrefl : ∀ (p : List Int), ¬ pathBefore p p
  | [] => by
    intro h
    cases h
  | i :: p => by
    intro h
    cases h with
    | cons h => exact pathBefore_irrefl p h
    | rel h => exact lt_irrefl i h

theorem preorder_paths_nodup (s : QgsSymbol) (rootPath : List Int) :
    (s.preorder.map (fun q => rootPath ++ q.1)).Nodup := by
  have h := preorder_sorted s
  have h2 : (s.preorder.map Prod.fst).Nodup := by
    unfold List.Nodup
    refine h.imp ?_
    intro a b hab heq
    subst heq
    exact pathBefore_irrefl a hab
  have h3 := h2.map (List.append_right_injective rootPath)
  simpa [List.map_map, Function.comp_def] using h3

/-- C9: `visitSymbol` is a total function of the symbol tree. Whatever the
callback, the state it leaves is that of calling the callback once for each
entry of the pre-order of the tree, in that order, with the symbol layer of
the entry and the id made of the symbol key (`mSymbolKey` followed by the
leaf identifier) and of the root path extended by the entry's path. The
entries of the pre-order are exactly the symbol layers of the tree, each with
the sequence of indices that leads to it from the root symbol; their paths
are in strictly increasing lexicographic order (a symbol layer before the
layers of its sub-symbol, siblings by increasing index), so no two calls
receive the same index path. -/
theorem visitSymbol_calls_each_layer_once_in_preorder {σ : Type}
    (mCallback : SymbolLayerCallback σ) (mSymbolKey leafIdentifier : QString)
    (symbol : QgsSymbol) (rootPath : List Int) (st : σ) :
    (SymbolLayerVisitor.visitSymbol mCallback mSymbolKey leafIdentifier symbol rootPath st).2
        = (symbol.preorder.map (fun q =>
            (q.2, ({ symbolKey := mSymbolKey ++ leafIdentifier,
                     symbolLayerIndexPath := rootPath ++ q.1 } : QgsSymbolLayerId)))).foldl
            (fun st c => (mCallback c.1 c.2 st).2) st
      ∧ (∀ p sl, (p, sl) ∈ symbol.preorder ↔ QgsSymbol.layerAt p symbol = some sl)
      ∧ (symbol.preorder.map Prod.fst).Pairwise pathBefore
      ∧ (symbol.preorder.map (fun q => rootPath ++ q.1)).Nodup :=
  ⟨visitSymbol_captured mCallback mSymbolKey leafIdentifier symbol rootPath st,
   preorder_layerAt symbol, preorder_sorted symbol, preorder_paths_nodup symbol rootPath⟩

/-- C9, at the symbol of the rule "rule1" of "points": the calls made from the
root path `[7]`, in order. -/
theorem visitSymbol_calls_example :
    (SymbolLayerVisitor.visitSymbol recorder "rule1" "leaf"
        (.mk [.mk "SimpleMarker" [] none, exMaskMarker]) [7] []).2
      = [(⟨"rule1leaf", [7, 0]⟩, "SimpleMarker", []),
         (⟨"rule1leaf", [7, 1]⟩, "MaskMarker",
           [⟨"roads", ⟨"", [0]⟩⟩, ⟨"rivers", ⟨"", [0]⟩⟩]),
         (⟨"rule1leaf", [7, 1, 0]⟩, "SimpleMarker", [])] := by
  decide

/-! ## Applying, then collecting again -/

theorem namesSymbolLayer_iff (key : QString) (slId : QgsSymbolLayerId) (s : MaskSource) :
    MaskSource.namesSymbolLayer key slId s = true
      ↔ s = { layerId := key, isLabeling := false, symbolLayerId := slId } := by
  cases s with
  | mk layerId isLabeling symbolLayerId =>
    simp only [MaskSource.namesSymbolLayer, decide_eq_true_eq, MaskSource.mk.injEq]
    constructor
    · rintro ⟨h1, h2, h3⟩
      exact ⟨h2, h1, h3⟩
    · rintro ⟨h1, h2, h3⟩
      exact ⟨h2, h1, h3⟩

theorem filter_eq_of_nodup {α : Type} [DecidableEq α] (a : α) (p : α → Bool)
    (hp : ∀ x, p x = true ↔ x = a) :
    ∀ (l : List α), l.Nodup → l.filter p = if a ∈ l then [a] else []
  | [], _ => by simp
  | x :: rest, h => by
    have hn := List.nodup_cons.mp h
    have ih := filter_eq_of_nodup a p hp rest hn.2
    by_cases hx : x = a
    · subst hx
      rw [List.filter_cons_of_pos ((hp x).mpr rfl), ih, if_neg hn.1]
      simp
    · have hpx : ¬ p x = true := fun h2 => hx ((hp x).mp h2)
      rw [List.filter_cons_of_neg hpx, ih]
      have : a ∈ x :: rest ↔ a ∈ rest := by
        simp [List.mem_cons, Ne.symm hx]
      simp only [this]

theorem rewritten_edit_ref (L : QString) (S : List MaskSource) (T : List QgsSymbolLayerId)
    (key : QString) (slId : QgsSymbolLayerId) (ty : QString)
    (old : QgsSymbolLayerReferenceList) (hOnly : ty ≠ "MaskMarker" → old = [])
    (ref : QgsSymbolLayerReference) :
    (ref ∈ rewrittenMasks L S T key slId ty old ∧ ref.layerId = L)
      ↔ ty = "MaskMarker"
          ∧ { layerId := key, isLabeling := false, symbolLayerId := slId } ∈ S
          ∧ ref.layerId = L ∧ ref.symbolLayerId ∈ T := by
  unfold rewrittenMasks
  by_cases hty : ty = "MaskMarker"
  · rw [if_pos hty]
    unfold rebuiltMasks
    simp only [List.mem_append, List.mem_filter, List.mem_flatMap, List.mem_map,
      decide_eq_true_eq, namesSymbolLayer_iff, hty, true_and]
    constructor
    · rintro ⟨(⟨_, hne⟩ | ⟨s, ⟨hs, rfl⟩, t, ht, rfl⟩), hid⟩
      · exact absurd hid hne
      · exact ⟨hs, rfl, ht⟩
    · rintro ⟨hs, hid, ht⟩
      refine ⟨Or.inr ⟨_, ⟨hs, rfl⟩, ref.symbolLayerId, ht, ?_⟩, hid⟩
      cases ref
      simp only at hid
      simp [hid]
  · rw [if_neg hty, hOnly hty]
    simp [hty]

theorem symbologySources_mem (L key : QString) (vl : QgsVectorLayer) (s : MaskSource) :
    s ∈ symbologySources L key vl
      ↔ ∃ renderer, vl.renderer = some renderer ∧ ∃ e ∈ renderer.visited,
          s = { layerId := key, isLabeling := false, symbolLayerId := e.1 }
            ∧ ∃ ref, ref ∈ e.2.2 ∧ ref.layerId = L := by
  unfold symbologySources
  cases vl.renderer with
  | none => simp
  | some renderer =>
    simp only [List.mem_flatMap, List.mem_map, List.mem_filter, decide_eq_true_eq,
      Option.some.injEq, exists_eq_left']
    constructor
    · rintro ⟨e, he, ref, href, rfl⟩
      exact ⟨e, he, rfl, ref, href⟩
    · rintro ⟨e, he, rfl, ref, href⟩
      exact ⟨e, he, ref, href, rfl⟩

theorem symbologyDestination_iff (L : QString) (vl : QgsVectorLayer) (t : QgsSymbolLayerId) :
    symbologyDestination L vl t
      ↔ ∃ renderer, vl.renderer = some renderer ∧ ∃ e ∈ renderer.visited,
          ∃ ref, (ref ∈ e.2.2 ∧ ref.layerId = L) ∧ ref.symbolLayerId = t := by
  unfold symbologyDestination
  rw [symbolLayerMasks_eq]
  cases vl.renderer with
  | none => simp
  | some renderer =>
    simp only [List.mem_map, List.mem_filter, Option.some.injEq, exists_eq_left']
    constructor
    · rintro ⟨p, ⟨e, ⟨he, _⟩, rfl⟩, ref, href, hid, ht⟩
      exact ⟨e, he, ref, ⟨href, hid⟩, ht⟩
    · rintro ⟨e, he, ref, ⟨href, hid⟩, ht⟩
      refine ⟨(e.1, e.2.2), ⟨e, ⟨he, ?_⟩, rfl⟩, ref, href, hid, ht⟩
      simp only [ne_eq, decide_eq_true_eq]
      intro hnil
      rw [hnil] at href
      simp at href

theorem applied_visited (mLayer : QgsVectorLayer) (S : List MaskSource)
    (T : QSet QgsSymbolLayerId) (key : QString) (vl : QgsVectorLayer) :
    (QgsMaskingWidget.applyVectorLayer mLayer S T key vl []).1.renderer
      = vl.renderer.map (fun renderer =>
          (renderer.accept (QgsMaskingWidget.maskSetter mLayer S T key) []).1)
    ∧ ∀ renderer, vl.renderer = some renderer →
        (renderer.accept (QgsMaskingWidget.maskSetter mLayer S T key) []).1.visited
          = renderer.visited.map (fun e =>
              (e.1, e.2.1, rewrittenMasks mLayer.id S T key e.1 e.2.1 e.2.2)) := by
  refine ⟨applyVectorLayer_renderer mLayer S T key vl [], fun renderer _ => ?_⟩
  exact visited_accept _ (rewrittenMasks mLayer.id S T key)
    (fun sl id st => maskSetter_fst mLayer S T key sl id st) renderer []

theorem applied_symbology_ref (mLayer : QgsVectorLayer) (S : List MaskSource)
    (T : QSet QgsSymbolLayerId) (key : QString) (vl : QgsVectorLayer)
    (hOnly : ∀ renderer, vl.renderer = some renderer →
      ∀ e ∈ renderer.visited, e.2.1 ≠ "MaskMarker" → e.2.2 = [])
    (P : QgsSymbolLayerId → Prop) (Q : QgsSymbolLayerReference → Prop) :
    (∃ renderer2,
        (QgsMaskingWidget.applyVectorLayer mLayer S T key vl []).1.renderer = some renderer2
        ∧ ∃ e2 ∈ renderer2.visited, P e2.1
          ∧ ∃ ref, (ref ∈ e2.2.2 ∧ ref.layerId = mLayer.id) ∧ Q ref)
      ↔ ∃ renderer, vl.renderer = some renderer ∧ ∃ e ∈ renderer.visited, P e.1
          ∧ e.2.1 = "MaskMarker"
          ∧ { layerId := key, isLabeling := false, symbolLayerId := e.1 } ∈ S
          ∧ ∃ ref, (ref.layerId = mLayer.id ∧ ref.symbolLayerId ∈ T) ∧ Q ref := by
  have hv := applied_visited mLayer S T key vl
  rw [hv.1]
  cases hr : vl.renderer with
  | none => simp
  | some renderer =>
    have hvis := hv.2 renderer hr
    simp only [Option.map_some', Option.some.injEq, exists_eq_left']
    rw [hvis]
    simp only [List.mem_map]
    constructor
    · rintro ⟨e2, ⟨e, he, rfl⟩, hP, ref, href, hQ⟩
      have h := (rewritten_edit_ref mLayer.id S T key e.1 e.2.1 e.2.2
        (hOnly renderer hr e he) ref).mp href
      exact ⟨e, he, hP, h.1, h.2.1, ref, h.2.2, hQ⟩
    · rintro ⟨e, he, hP, hty, hs, ref, href, hQ⟩
      refine ⟨_, ⟨e, he, rfl⟩, hP, ref, ?_, hQ⟩
      exact (rewritten_edit_ref mLayer.id S T key e.1 e.2.1 e.2.2
        (hOnly renderer hr e he) ref).mpr ⟨hty, hs, href⟩

/-- C10 as stated fails: with a non-empty set of destinations and no selected
source, in a project where only mask markers carry masks, collecting again
after `apply` returns the empty destination set, not the selected set. -/
theorem apply_then_setLayer_counterexample :
    exTargets ≠ []
    ∧ visitedAt exProject 0 = none
    ∧ visitedAt exProject 1
        = some [(⟨"rule1", [0]⟩, "SimpleMarker", []),
                (⟨"rule1", [1]⟩, "MaskMarker",
                  [⟨"roads", ⟨"", [0]⟩⟩, ⟨"rivers", ⟨"", [0]⟩⟩]),
                (⟨"rule1", [1, 0]⟩, "SimpleMarker", [])]
    ∧ visitedAt exProject 2 = none
    ∧ visitedAt exProject 3
        = some [(⟨"", [0]⟩, "SimpleLine", []), (⟨"", [1]⟩, "SimpleLine", [])]
    ∧ (QgsMaskingWidget.setLayer (fun _ => [])
        (QgsMaskingWidget.apply exProject exRoads [] exTargets).layers
        exRoads).maskedSymbolLayers = []
    ∧ (QgsMaskingWidget.setLayer (fun _ => [])
        (QgsMaskingWidget.apply exProject exRoads [] exTargets).layers
        exRoads).maskSources = []
    ∧ ¬ (∀ t, t ∈ (QgsMaskingWidget.setLayer (fun _ => [])
          (QgsMaskingWidget.apply exProject exRoads [] exTargets).layers
          exRoads).maskedSymbolLayers ↔ t ∈ exTargets) := by
  refine ⟨by decide, by decide, by decide, by decide, by decide, by decide, by decide, ?_⟩
  intro h
  have h2 := (h ⟨"", [0]⟩).mpr (by decide)
  revert h2
  decide

/-- C10, amended. Let the selected sources be duplicate-free. (1) After `apply`,
every symbol layer of type "MaskMarker" that the visitor reaches with id
`slId` in the vector layer stored under `key` holds, among its references to
the edited layer, exactly the references to the selected destinations, one
each and in their order, when the descriptor (`key`, not labeling, `slId`) is
selected, and none otherwise. (2) When only symbol layers of type
"MaskMarker" carry masks and some destination is selected, collecting the
symbology masks again as `setLayer` does returns exactly the selected sources
that name an existing symbol layer of type "MaskMarker", and returns the
selected destinations provided at least one such source is selected (no
destination otherwise). -/
theorem apply_then_setLayer_round_trip (layers : List (QString × QgsMapLayer))
    (mLayer : QgsVectorLayer) (maskSources : List MaskSource)
    (maskedSymbolLayers : QSet QgsSymbolLayerId) (hS : maskSources.Nodup) :
    (∀ (n : Nat) (key : QString) (vl : QgsVectorLayer) (renderer : QgsFeatureRenderer),
      layers[n]? = some (key, QgsMapLayer.vectorLayer vl) → vl.renderer = some renderer →
      ∃ vl2 renderer2,
        (QgsMaskingWidget.apply layers mLayer maskSources maskedSymbolLayers).layers[n]?
            = some (key, QgsMapLayer.vectorLayer vl2)
          ∧ vl2.renderer = some renderer2
          ∧ ∀ (i : Nat) (slId : QgsSymbolLayerId) (masks : QgsSymbolLayerReferenceList),
              renderer.visited[i]? = some (slId, "MaskMarker", masks) →
              ∃ masks2, renderer2.visited[i]? = some (slId, "MaskMarker", masks2)
                ∧ masks2.filter (fun ref => decide (ref.layerId = mLayer.id))
                  = if { layerId := key, isLabeling := false, symbolLayerId := slId }
                        ∈ maskSources then
                      maskedSymbolLayers.map
                        (fun maskedId => { layerId := mLayer.id, symbolLayerId := maskedId })
                    else [])
    ∧ (onlyMaskMarkersCarryMasks layers → maskedSymbolLayers ≠ [] →
        (∀ source,
          source ∈ (QgsMaskingWidget.setLayer (fun _ => [])
              (QgsMaskingWidget.apply layers mLayer maskSources maskedSymbolLayers).layers
              mLayer).maskSources
            ↔ source ∈ maskSources ∧ namesMaskMarkerOf layers source)
        ∧ (∀ id,
          id ∈ (QgsMaskingWidget.setLayer (fun _ => [])
              (QgsMaskingWidget.apply layers mLayer maskSources maskedSymbolLayers).layers
              mLayer).maskedSymbolLayers
            ↔ id ∈ maskedSymbolLayers
              ∧ ∃ source ∈ maskSources, namesMaskMarkerOf layers source)) := by
  refine ⟨?_, ?_⟩
  · intro n key vl renderer hlayer hrenderer
    have hv := applied_visited mLayer maskSources maskedSymbolLayers key vl
    refine ⟨_, _, apply_getElem layers mLayer maskSources maskedSymbolLayers n key vl hlayer,
      by rw [hv.1, hrenderer]; rfl, ?_⟩
    intro i slId masks hi
    refine ⟨rewrittenMasks mLayer.id maskSources maskedSymbolLayers key slId "MaskMarker" masks,
      by rw [hv.2 renderer hrenderer, List.getElem?_map, hi]; rfl, ?_⟩
    unfold rewrittenMasks
    rw [if_pos rfl, rebuiltMasks_new,
      filter_eq_of_nodup _ _ (namesSymbolLayer_iff key slId) maskSources hS]
    split <;> simp
  · intro hOnly hT
    obtain ⟨t0, ht0⟩ := List.exists_mem_of_ne_nil _ hT
    have hOnlyLayer : ∀ e ∈ layers, ∀ vl, e.2 = QgsMapLayer.vectorLayer vl →
        ∀ renderer, vl.renderer = some renderer →
          ∀ v ∈ renderer.visited, v.2.1 ≠ "MaskMarker" → v.2.2 = [] :=
      fun e he vl hvl renderer hr => hOnly e he vl renderer hvl hr
    refine ⟨fun source => ?_, fun id => ?_⟩
    · rw [setLayer_maskSources_eq, apply_layers]
      simp only [List.mem_flatMap, List.mem_map]
      constructor
      · rintro ⟨e2, ⟨e, he, rfl⟩, hs⟩
        cases hl : e.2 with
        | otherLayer =>
          simp [QgsMaskingWidget.applied, collectedSourcesOf, hl,
            QgsMapLayer.asVectorLayer] at hs
        | vectorLayer vl =>
          simp only [QgsMaskingWidget.applied, collectedSourcesOf, hl,
            QgsMapLayer.asVectorLayer, labelingSources, List.flatMap_nil, List.append_nil,
            symbologySources_mem] at hs
          obtain ⟨renderer2, hr2, e2, he2, hsrc, ref, href⟩ := hs
          obtain ⟨renderer, hr, v, hv, hP, hty, hsel, _⟩ :=
            (applied_symbology_ref mLayer maskSources maskedSymbolLayers e.1 vl
              (hOnlyLayer e he vl hl)
              (fun slId => source = { layerId := e.1, isLabeling := false, symbolLayerId := slId })
              (fun _ => True)).mp ⟨renderer2, hr2, e2, he2, hsrc, ref, href, trivial⟩
          subst hP
          exact ⟨hsel, rfl, e, he, vl, renderer, hl, rfl, hr, v, hv, rfl, hty⟩
      · rintro ⟨hsel, hlab, e, he, vl, renderer, hl, hkey, hr, v, hv, hid, hty⟩
        refine ⟨_, ⟨e, he, rfl⟩, ?_⟩
        simp only [QgsMaskingWidget.applied, collectedSourcesOf, hl,
          QgsMapLayer.asVectorLayer, labelingSources, List.flatMap_nil, List.append_nil,
          symbologySources_mem]
        have hsource : source
            = { layerId := e.1, isLabeling := false, symbolLayerId := v.1 } := by
          cases source
          simp only at hlab hkey hid
          simp [hlab, hkey, hid]
        obtain ⟨renderer2, hr2, e2, he2, hsrc, ref, href, _⟩ :=
          (applied_symbology_ref mLayer maskSources maskedSymbolLayers e.1 vl
            (hOnlyLayer e he vl hl)
            (fun slId => source = { layerId := e.1, isLabeling := false, symbolLayerId := slId })
            (fun _ => True)).mpr
            ⟨renderer, hr, v, hv, hsource, hty, by rw [← hsource]; exact hsel,
              { layerId := mLayer.id, symbolLayerId := t0 }, ⟨rfl, ht0⟩, trivial⟩
        exact ⟨renderer2, hr2, e2, he2, hsrc, ref, href⟩
    · rw [setLayer_masked_iff, apply_layers]
      simp only [List.mem_map]
      constructor
      · rintro ⟨e2, ⟨e, he, rfl⟩, vl2, hvl2, hd⟩
        cases hl : e.2 with
        | otherLayer =>
          simp [QgsMaskingWidget.applied, hl, QgsMapLayer.asVectorLayer] at hvl2
        | vectorLayer vl =>
          simp only [QgsMaskingWidget.applied, hl, QgsMapLayer.asVectorLayer,
            Option.some.injEq] at hvl2
          subst hvl2
          rcases hd with hd | hd
          · rw [symbologyDestination_iff] at hd
            obtain ⟨renderer2, hr2, e2, he2, ref, href, hid⟩ := hd
            obtain ⟨renderer, hr, v, hv, _, hty, hsel, ref2, href2, hid2⟩ :=
              (applied_symbology_ref mLayer maskSources maskedSymbolLayers e.1 vl
                (hOnlyLayer e he vl hl) (fun _ => True)
                (fun ref => ref.symbolLayerId = id)).mp
                ⟨renderer2, hr2, e2, he2, trivial, ref, href, hid⟩
            refine ⟨by rw [← hid2]; exact href2.2, _, hsel, rfl, e, he, vl, renderer, hl, rfl,
              hr, v, hv, rfl, hty⟩
          · simp [labelingDestination] at hd
      · rintro ⟨hid, source, hsel, hlab, e, he, vl, renderer, hl, hkey, hr, v, hv, hslid, hty⟩
        refine ⟨_, ⟨e, he, rfl⟩,
          (QgsMaskingWidget.applyVectorLayer mLayer maskSources maskedSymbolLayers
            e.1 vl []).1, ?_, Or.inl ?_⟩
        · simp [QgsMaskingWidget.applied, hl, QgsMapLayer.asVectorLayer]
        · rw [symbologyDestination_iff]
          have hsource : source
              = { layerId := e.1, isLabeling := false, symbolLayerId := v.1 } := by
            cases source
            simp only at hlab hkey hslid
            simp [hlab, hkey, hslid]
          obtain ⟨renderer2, hr2, e2, he2, _, ref, href, hq⟩ :=
            (applied_symbology_ref mLayer maskSources maskedSymbolLayers e.1 vl
              (hOnlyLayer e he vl hl) (fun _ => True)
              (fun ref => ref.symbolLayerId = id)).mpr
              ⟨renderer, hr, v, hv, trivial, hty, by rw [← hsource]; exact hsel,
                { layerId := mLayer.id, symbolLayerId := id }, ⟨rfl, hid⟩, rfl⟩
          exact ⟨renderer2, hr2, e2, he2, ref, href, hq⟩

theorem exProject_onlyMaskMarkers : onlyMaskMarkersCarryMasks exProject := by
  intro layerIt h vl renderer hvl hr e he hty
  simp only [exProject, List.mem_cons, List.mem_singleton, List.not_mem_nil, or_false] at h
  rcases h with rfl | rfl | rfl | rfl
  · simp only [QgsMapLayer.vectorLayer.injEq] at hvl
    subst hvl
    simp [exBare] at hr
  · simp only [QgsMapLayer.vectorLayer.injEq] at hvl
    subst hvl
    simp only [exPoints, Option.some.injEq] at hr
    subst hr
    have hv : exPointsRenderer.visited
        = [(⟨"rule1", [0]⟩, "SimpleMarker", []),
           (⟨"rule1", [1]⟩, "MaskMarker", [⟨"roads", ⟨"", [0]⟩⟩, ⟨"rivers", ⟨"", [0]⟩⟩]),
           (⟨"rule1", [1, 0]⟩, "SimpleMarker", [])] := by decide
    rw [hv] at he
    simp only [List.mem_cons, List.mem_singleton, List.not_mem_nil, or_false] at he
    rcases he with rfl | rfl | rfl
    · rfl
    · exact absurd rfl hty
    · rfl
  · simp at hvl
  · simp only [QgsMapLayer.vectorLayer.injEq] at hvl
    subst hvl
    simp only [exRoads, Option.some.injEq] at hr
    subst hr
    have hv : exRoadsRenderer.visited
        = [(⟨"", [0]⟩, "SimpleLine", []), (⟨"", [1]⟩, "SimpleLine", [])] := by decide
    rw [hv] at he
    simp only [List.mem_cons, List.mem_singleton, List.not_mem_nil, or_false] at he
    rcases he with rfl | rfl
    · rfl
    · rfl

/-- C10 amended, at the example project with its two selected sources and two
selected destinations. -/
theorem apply_then_setLayer_round_trip_witness :
    (exSources.Nodup ∧ onlyMaskMarkersCarryMasks exProject ∧ exTargets ≠ [])
    ∧ (∀ source,
        source ∈ (QgsMaskingWidget.setLayer (fun _ => [])
            (QgsMaskingWidget.apply exProject exRoads exSources exTargets).layers
            exRoads).maskSources
          ↔ source ∈ exSources ∧ namesMaskMarkerOf exProject source)
    ∧ (∀ id,
        id ∈ (QgsMaskingWidget.setLayer (fun _ => [])
            (QgsMaskingWidget.apply exProject exRoads exSources exTargets).layers
            exRoads).maskedSymbolLayers
          ↔ id ∈ exTargets ∧ ∃ source ∈ exSources, namesMaskMarkerOf exProject source) :=
  ⟨⟨by decide, exProject_onlyMaskMarkers, by decide⟩,
   (apply_then_setLayer_round_trip exProject exRoads exSources exTargets (by decide)).2
     exProject_onlyMaskMarkers (by decide)⟩

/-- C10, at the example project: what collecting the symbology masks again
returns after `apply`. -/
theorem apply_then_setLayer_example :
    (QgsMaskingWidget.setLayer (fun _ => [])
        (QgsMaskingWidget.apply exProject exRoads exSources exTargets).layers
        exRoads).maskSources
      = [{ layerId := "points", isLabeling := false, symbolLayerId := ⟨"rule1", [1]⟩ },
         { layerId := "points", isLabeling := false, symbolLayerId := ⟨"rule1", [1]⟩ }]
    ∧ (QgsMaskingWidget.setLayer (fun _ => [])
        (QgsMaskingWidget.apply exProject exRoads exSources exTargets).layers
        exRoads).maskedSymbolLayers
      = [⟨"", [1]⟩, ⟨"", [0]⟩] := by
  decide
